import Mathlib

/-!
Verification of the card-game session core in `src/game_logic.py`
(`nypblockchain/pythongame`): the card catalog, the legality engine,
the session state machine (`GameState`) and its operations
(`play_card`, `pass_turn`, `use_power`, `start_game`), and the
per-player state snapshot (`get_game_state_for_player`).

Modelling conventions:
* Python dicts keyed by player id become total functions `String → α`
  whose default value mirrors `dict.get(key, default)`; `player_names`
  stays an association list because the source uses `dict.get` with no
  default on it (returning `None` for a missing key).
* `random.sample`, `random.shuffle` and `random.randint(0, 1)` are
  threaded explicitly as a `Rand` record of outcomes; `Rand.OK` states
  exactly the guarantees the Python library provides (a sample is a
  size-`min k n` sub-multiset, a shuffle is a permutation, the coin is
  0 or 1).
* The source validates candidate Python code with `ast.parse`, an
  oracle outside the repository.  Definitions marked
  "Modelled from the spec" replace that oracle by the explicit
  token-level mini-grammar of spec section 4.2.
* `GameState.consumed` and `GameState.discarded` are ghost accounting
  fields (never read by any operation): `consumed` records special
  cards removed from a hand without entering the played sequence, and
  `discarded` records cards destroyed by the `discard_2` effect and the
  `mulligan` power.  They exist only so card-conservation statements
  can be expressed.
-/

namespace CardGame

/-- The card categories of `CATEGORIES` in `src/game_logic.py`. -/
inductive Cat where
  | LOOP | VARIABLE | KEYWORD | FUNCTION | VALUE | OPERATOR
  | SYNTAX_OPEN | SYNTAX_CLOSE | SYNTAX_COLON | SYNTAX_COMMA
  | SPECIAL | START
deriving DecidableEq, Repr

open Cat

/-- One entry of the `CARDS` table: category, points, the categories the
card can follow, deck copy count, and the optional special effect. -/
structure Card where
  category : Cat
  points : Nat
  can_follow : List Cat
  count : Nat
  effect : Option String := none
deriving DecidableEq, Repr

/-- `can_follow` list shared by the VARIABLE cards. -/
def varFollow : List Cat :=
  [START, LOOP, KEYWORD, OPERATOR, SYNTAX_OPEN, SYNTAX_COLON, SYNTAX_COMMA, VALUE, FUNCTION]

/-- `can_follow` list shared by the numeric / string VALUE cards. -/
def numFollow : List Cat := [SYNTAX_OPEN, SYNTAX_COMMA, OPERATOR, KEYWORD, VARIABLE]

/-- `can_follow` list shared by `True`, `False`, `None`. -/
def boolFollow : List Cat := [KEYWORD, OPERATOR, SYNTAX_OPEN, SYNTAX_COMMA, VARIABLE]

/-- `can_follow` list shared by the binary-operator cards. -/
def opFollow : List Cat := [VALUE, VARIABLE, SYNTAX_CLOSE, FUNCTION]

/-- `can_follow` list shared by the SPECIAL cards. -/
def specialFollow : List Cat :=
  [START, LOOP, KEYWORD, FUNCTION, VALUE, VARIABLE, OPERATOR, SYNTAX_OPEN, SYNTAX_CLOSE, SYNTAX_COLON]

/-- The full `CARDS` table of `src/game_logic.py`, in definition order
(the order matters for `create_deck`). -/
def CARDS : List (String × Card) := [
  ("for", ⟨LOOP, 2, [START, SYNTAX_COLON], 2, none⟩),
  ("while", ⟨LOOP, 2, [START, SYNTAX_COLON], 1, none⟩),
  ("x", ⟨VARIABLE, 1, varFollow, 2, none⟩),
  ("i", ⟨VARIABLE, 1, varFollow, 3, none⟩),
  ("n", ⟨VARIABLE, 1, varFollow, 2, none⟩),
  ("item", ⟨VARIABLE, 1, varFollow, 2, none⟩),
  ("result", ⟨VARIABLE, 1, varFollow, 2, none⟩),
  ("in", ⟨KEYWORD, 2, [VARIABLE], 3, none⟩),
  ("if", ⟨KEYWORD, 2, [START, SYNTAX_COLON], 2, none⟩),
  ("else", ⟨KEYWORD, 2, [SYNTAX_COLON], 1, none⟩),
  ("elif", ⟨KEYWORD, 2, [SYNTAX_COLON], 1, none⟩),
  ("not", ⟨KEYWORD, 2, [KEYWORD, OPERATOR, SYNTAX_OPEN], 1, none⟩),
  ("def", ⟨KEYWORD, 3, [START, SYNTAX_COLON], 1, none⟩),
  ("return", ⟨KEYWORD, 3, [SYNTAX_COLON, START], 1, none⟩),
  ("break", ⟨KEYWORD, 2, [START, SYNTAX_COLON], 2, none⟩),
  ("continue", ⟨KEYWORD, 2, [START, SYNTAX_COLON], 2, none⟩),
  ("pass", ⟨KEYWORD, 1, [START, SYNTAX_COLON], 2, none⟩),
  ("range", ⟨FUNCTION, 2, [KEYWORD, OPERATOR, SYNTAX_OPEN, SYNTAX_COMMA], 3, none⟩),
  ("print", ⟨FUNCTION, 2, [START, SYNTAX_COLON], 2, none⟩),
  ("len", ⟨FUNCTION, 2, [KEYWORD, OPERATOR, SYNTAX_OPEN], 1, none⟩),
  ("input", ⟨FUNCTION, 2, [KEYWORD, OPERATOR, SYNTAX_OPEN], 1, none⟩),
  ("int", ⟨FUNCTION, 2, [KEYWORD, OPERATOR, SYNTAX_OPEN], 1, none⟩),
  ("str", ⟨FUNCTION, 2, [KEYWORD, OPERATOR, SYNTAX_OPEN], 1, none⟩),
  ("max", ⟨FUNCTION, 2, [KEYWORD, OPERATOR, SYNTAX_OPEN], 1, none⟩),
  ("min", ⟨FUNCTION, 2, [KEYWORD, OPERATOR, SYNTAX_OPEN], 1, none⟩),
  ("abs", ⟨FUNCTION, 2, [KEYWORD, OPERATOR, SYNTAX_OPEN], 1, none⟩),
  ("0", ⟨VALUE, 1, numFollow, 2, none⟩),
  ("1", ⟨VALUE, 1, numFollow, 3, none⟩),
  ("10", ⟨VALUE, 1, numFollow, 2, none⟩),
  ("5", ⟨VALUE, 1, numFollow, 2, none⟩),
  ("2", ⟨VALUE, 1, numFollow, 2, none⟩),
  ("True", ⟨VALUE, 1, boolFollow, 2, none⟩),
  ("False", ⟨VALUE, 1, boolFollow, 2, none⟩),
  ("None", ⟨VALUE, 1, boolFollow, 1, none⟩),
  ("\"hello\"", ⟨VALUE, 1, numFollow, 2, none⟩),
  ("+", ⟨OPERATOR, 1, opFollow, 1, none⟩),
  ("-", ⟨OPERATOR, 1, opFollow, 1, none⟩),
  ("*", ⟨OPERATOR, 1, opFollow, 1, none⟩),
  ("/", ⟨OPERATOR, 1, opFollow, 1, none⟩),
  ("==", ⟨OPERATOR, 1, opFollow, 1, none⟩),
  ("!=", ⟨OPERATOR, 1, opFollow, 1, none⟩),
  ("<", ⟨OPERATOR, 1, opFollow, 1, none⟩),
  (">", ⟨OPERATOR, 1, opFollow, 1, none⟩),
  ("<=", ⟨OPERATOR, 1, opFollow, 1, none⟩),
  (">=", ⟨OPERATOR, 1, opFollow, 1, none⟩),
  ("and", ⟨OPERATOR, 1, opFollow, 1, none⟩),
  ("or", ⟨OPERATOR, 1, opFollow, 1, none⟩),
  ("=", ⟨OPERATOR, 1, [VARIABLE], 3, none⟩),
  ("+=", ⟨OPERATOR, 1, [VARIABLE], 2, none⟩),
  ("%", ⟨OPERATOR, 1, opFollow, 2, none⟩),
  (",", ⟨SYNTAX_COMMA, 1, [VALUE, VARIABLE, SYNTAX_CLOSE], 3, none⟩),
  ("(", ⟨SYNTAX_OPEN, 1, [FUNCTION, KEYWORD], 3, none⟩),
  (")", ⟨SYNTAX_CLOSE, 1, [VALUE, VARIABLE, SYNTAX_CLOSE], 3, none⟩),
  (":", ⟨SYNTAX_COLON, 1, [SYNTAX_CLOSE, VALUE, VARIABLE, KEYWORD], 4, none⟩),
  ("Draw 2", ⟨SPECIAL, 0, specialFollow, 1, some "draw_2"⟩),
  ("Discard 2", ⟨SPECIAL, 0, specialFollow, 1, some "discard_2"⟩),
  ("Skip", ⟨SPECIAL, 0, specialFollow, 1, some "skip"⟩),
  ("Wild", ⟨SPECIAL, 0, specialFollow, 2, some "wild"⟩)]

/-- Look a card name up in the table (`CARDS.get(name)` /
`name in CARDS` in the source). -/
def cardLookup (name : String) : List (String × Card) → Option Card
  | [] => none
  | (k, v) :: rest => if k = name then some v else cardLookup name rest

/-- `CARDS[name]` as an option. -/
def card? (name : String) : Option Card := cardLookup name CARDS

/-- `name in CARDS`. -/
def isKnownCard (name : String) : Bool := (card? name).isSome

/-- Category of a known card (callers only use it on known cards). -/
def catOf (name : String) : Option Cat := (card? name).map Card.category

/-- `is_special_card` in the source. -/
def is_special_card (name : String) : Bool :=
  match card? name with
  | none => false
  | some c => c.category = SPECIAL

/-- `get_card_effect` in the source. -/
def get_card_effect (name : String) : Option String :=
  match card? name with
  | none => none
  | some c => c.effect

/-- `get_card_points` in the source. -/
def get_card_points (name : String) : Nat :=
  match card? name with
  | none => 0
  | some c => c.points

/-- `create_deck`: each card repeated `count` times, in table order. -/
def create_deck : List String :=
  CARDS.flatMap (fun kv => List.replicate kv.2.count kv.1)

/-- `draw_cards`: pop `num_cards` cards off the top (the Python list's
tail) of the deck; returns the drawn cards in pop order and the
remaining deck. -/
def draw_cards (deck : List String) (num_cards : Nat) : List String × List String :=
  let m := min num_cards deck.length
  (deck.reverse.take m, (deck.reverse.drop m).reverse)

theorem draw_cards_fst_length (deck : List String) (n : Nat) :
    (draw_cards deck n).1.length = min n deck.length := by
  simp [draw_cards]

theorem draw_cards_snd_length (deck : List String) (n : Nat) :
    (draw_cards deck n).2.length = deck.length - min n deck.length := by
  simp [draw_cards]

/-! ### The grammar checker, modelled from the spec

The source validates candidate code by rendering the tokens to text and
calling `ast.parse` (the host Python parser), an oracle that is not part
of the repository.  Spec section 4.2 mandates the portable replacement:
an explicit token-level mini-grammar (`isCompleteProgram`) together with
a fixed battery of grammatically-motivated completions
(`canExtendToValid`).  The definitions below follow that section. -/

/-- A token that can appear as a bare name or a call target
(VARIABLE and FUNCTION cards render as Python identifiers). -/
def isNameTok (t : String) : Bool :=
  match catOf t with
  | some VARIABLE => true
  | some FUNCTION => true
  | _ => false

/-- A literal token (VALUE cards). -/
def isValueTok (t : String) : Bool := catOf t = some VALUE

/-- The binary operators of the supported expression grammar
(spec 4.2: `+ - * / == != < > <= >= and or %`); the assignment
operators `=` and `+=` are statement syntax, not expression operators. -/
def binOps : List String :=
  ["+", "-", "*", "/", "==", "!=", "<", ">", "<=", ">=", "and", "or", "%"]

mutual

/-- Modelled from the spec: expression parser of the documented subset
(literals, names, unary `not`, binary operators, calls, parenthesized
expressions).  Returns the unconsumed remainder on success. -/
def parseExpr : Nat → List String → Option (List String)
  | 0, _ => none
  | f + 1, ts =>
    match ts with
    | "not" :: rest => parseExpr f rest
    | _ =>
      match parseAtom f ts with
      | some rest => parseTail f rest
      | none => none

/-- Modelled from the spec: optional binary-operator continuation of an
expression. -/
def parseTail : Nat → List String → Option (List String)
  | 0, _ => none
  | f + 1, ts =>
    match ts with
    | op :: rest => if op ∈ binOps then parseExpr f rest else some ts
    | [] => some []

/-- Modelled from the spec: atomic expression — a literal, a name, a
call `NAME(ARGS)`, or a parenthesized expression. -/
def parseAtom : Nat → List String → Option (List String)
  | 0, _ => none
  | f + 1, ts =>
    match ts with
    | [] => none
    | "(" :: rest =>
      match parseExpr f rest with
      | some (")" :: rest2) => some rest2
      | _ => none
    | t :: rest =>
      if isValueTok t then some rest
      else if isNameTok t then
        match rest with
        | "(" :: rest2 =>
          match parseArgs f rest2 with
          | some (")" :: rest3) => some rest3
          | _ => none
        | _ => some rest
      else none

/-- Modelled from the spec: possibly-empty comma-separated argument
list, stopping in front of the closing parenthesis. -/
def parseArgs : Nat → List String → Option (List String)
  | 0, _ => none
  | f + 1, ts =>
    match ts with
    | ")" :: _ => some ts
    | _ =>
      match parseExpr f ts with
      | some ts2 => parseArgsMore f ts2
      | none => none

/-- Modelled from the spec: further `, EXPR` arguments. -/
def parseArgsMore : Nat → List String → Option (List String)
  | 0, _ => none
  | f + 1, ts =>
    match ts with
    | "," :: rest =>
      match parseExpr f rest with
      | some ts2 => parseArgsMore f ts2
      | none => none
    | _ => some ts

/-- Modelled from the spec: one statement of the documented subset —
`for x in EXPR:`, `while EXPR:`, `if EXPR:`, `def NAME():`,
`return [EXPR]` (inside a function), `break`/`continue` (inside a
loop), `pass`, assignment `NAME = EXPR` / `NAME += EXPR`, or an
expression statement.  `else`/`elif` clauses are rejected: the
source's renderer cannot lay them out as parseable text. -/
def parseStmt : Nat → Bool → Bool → List String → Option (List String)
  | 0, _, _, _ => none
  | f + 1, inLoop, inFunc, ts =>
    match ts with
    | [] => none
    | t :: rest =>
      if t = "for" then
        match rest with
        | v :: "in" :: ts3 =>
          if isNameTok v then
            match parseExpr f ts3 with
            | some (":" :: ts4) => parseBlock f true inFunc ts4
            | _ => none
          else none
        | _ => none
      else if t = "while" then
        match parseExpr f rest with
        | some (":" :: ts4) => parseBlock f true inFunc ts4
        | _ => none
      else if t = "if" then
        match parseExpr f rest with
        | some (":" :: ts4) => parseBlock f inLoop inFunc ts4
        | _ => none
      else if t = "def" then
        match rest with
        | v :: "(" :: ")" :: ":" :: ts4 =>
          if isNameTok v then parseBlock f inLoop true ts4 else none
        | _ => none
      else if t = "return" then
        if inFunc then
          match rest with
          | [] => some []
          | _ => parseExpr f rest
        else none
      else if t = "break" ∨ t = "continue" then
        if inLoop then some rest else none
      else if t = "pass" then some rest
      else
        match rest with
        | "=" :: ts2 => if isNameTok t then parseExpr f ts2 else none
        | "+=" :: ts2 => if isNameTok t then parseExpr f ts2 else none
        | _ => parseExpr f ts

/-- Modelled from the spec: block body after a header's colon.  An
empty remainder is accepted because the renderer synthesizes a `pass`
placeholder for a trailing block-opening colon. -/
def parseBlock : Nat → Bool → Bool → List String → Option (List String)
  | 0, _, _, _ => none
  | f + 1, inLoop, inFunc, ts =>
    match ts with
    | [] => some []
    | _ => parseStmt f inLoop inFunc ts

end

/-- Keep the non-special known cards (`[c for c in cards if c in CARDS
and CARDS[c]["category"] != "SPECIAL"]`). -/
def filterCode (cards : List String) : List String :=
  cards.filter (fun c => isKnownCard c && ! is_special_card c)

/-- Modelled from the spec: `isCompleteProgram` — the token sequence
parses as a complete statement of the mini-grammar (empty code counts
as valid, as in `validate_python_syntax`). -/
def validate_python_code (toks : List String) : Bool :=
  toks.isEmpty || parseStmt (4 * toks.length + 8) false false toks == some []

/-- Modelled from the spec: the fixed battery of grammatically-motivated
completions tried by `canExtendToValid` (loop headers, conditional
headers, unbalanced-parenthesis closure, dangling assignment or
operator, dangling `in`, function headers). -/
def completionBattery : List (List String) :=
  [[], [":"], ["1"], ["x"], ["True"], ["True", ":"], ["x", ":"], ["1", ":"],
   [")"], [")", ")"], [")", ")", ")"], [")", ":"], [")", ")", ":"], [")", ")", ")", ":"],
   ["i", "in", "range", "(", "10", ")", ":"], ["in", "range", "(", "10", ")", ":"],
   ["range", "(", "10", ")", ":"], ["(", "10", ")", ":"], ["(", ")", ":"],
   ["x", "(", ")", ":"], ["(", "x", ")"], ["(", ")"]]

/-- Modelled from the spec: the `def f():` wrapper that lets a `return`
statement validate (the source's pattern 9). -/
def defWrap : List String := ["def", "x", "(", ")", ":"]

/-- Modelled from the spec: `canExtendToValid` — accept if some battery
completion (with or without the function wrapper for `return`) parses
cleanly. -/
def can_be_completed (toks : List String) : Bool :=
  completionBattery.any (fun c =>
    validate_python_code (toks ++ c) || validate_python_code (defWrap ++ toks ++ c))

/-- `can_form_valid_python` from the source, with the `ast.parse` oracle
replaced by the spec 4.2 grammar checker: special cards are always
valid; otherwise the sequence extended by the pending card must be a
complete program or extendable to one. -/
def can_form_valid_python (played : List String) (pending : String) : Bool × String :=
  match card? pending with
  | none => (false, "Unknown card")
  | some cd =>
    if cd.category = SPECIAL then (true, "Special card - always valid")
    else
      let toks := filterCode (played ++ [pending])
      if toks.isEmpty then (true, "Starting code")
      else if validate_python_code toks then (true, "Valid Python syntax")
      else if can_be_completed toks then (true, "Valid completion pattern")
      else (false, "Invalid Python syntax")

/-! ### The legality engine (`src/game_logic.py`, card validation) -/

/-- `get_last_card_category`: category of the last played card, with
`START` for an empty sequence and for a trailing colon (statement
boundary). -/
def get_last_card_category (played : List String) : Cat :=
  match played.getLast? with
  | none => START
  | some last =>
    if last = ":" then START
    else
      match card? last with
      | some c => c.category
      | none => START

/-- `can_play_card`: append-position legality check with the structural
close-parenthesis guard. -/
def can_play_card (card_name : String) (played : List String) (last_was_wild : Bool)
    (open_paren_count : Int) (use_flexible_validation : Bool := true) : Bool :=
  match card? card_name with
  | none => false
  | some card =>
    if card.category = SPECIAL then true
    else if card_name = ")" ∧ open_paren_count ≤ 0 then false
    else
      let last_category := get_last_card_category played
      let can_follow := card.can_follow
      let category_valid : Bool :=
        if last_category = START ∧ played ≠ [] ∧ played.getLast? = some ":" then
          decide (last_category ∈ can_follow) || decide (SYNTAX_COLON ∈ can_follow)
        else if last_category ∈ can_follow then true
        else last_was_wild
      let is_valid := (can_form_valid_python played card_name).1
      if ¬ is_valid then false
      else if category_valid then true
      else is_valid

/-- `can_insert_card_at_position`: legality of inserting a card at a
position — backward neighbor check, forward neighbor check, then the
grammar check.  Note that it never consults the open-parenthesis
count. -/
def can_insert_card_at_position (card_name : String) (played : List String) (position : Nat)
    (last_was_wild : Bool) : Bool × String :=
  match card? card_name with
  | none => (false, "Unknown card")
  | some card_data =>
    if card_data.category = SPECIAL then (true, "Special cards can be played anytime")
    else
      let new_sequence := played.take position ++ [card_name] ++ played.drop position
      let cards_before := played.take position
      let check1 : Bool × String :=
        if position = 0 then
          if ¬ last_was_wild ∧ START ∉ card_data.can_follow then
            if SYNTAX_COLON ∉ card_data.can_follow then
              (false, "'" ++ card_name ++ "' cannot start a sequence")
            else (true, "")
          else (true, "")
        else
          match played.get? (position - 1) with
          | none => (true, "")
          | some card_before =>
            match card? card_before with
            | none => (true, "")
            | some before_data =>
              if ¬ last_was_wild ∧ before_data.category ∉ card_data.can_follow then
                if card_before = ":" ∧ START ∉ card_data.can_follow ∧
                    SYNTAX_COLON ∉ card_data.can_follow then
                  (false, "'" ++ card_name ++ "' cannot follow '" ++ card_before ++ "'")
                else if card_before ≠ ":" then
                  (false, "'" ++ card_name ++ "' cannot follow '" ++ card_before ++ "'")
                else (true, "")
              else (true, "")
      if check1.1 = false then check1
      else
        let check2 : Bool × String :=
          if h : position < played.length then
            let card_after := played.get ⟨position, h⟩
            match card? card_after with
            | none => (true, "")
            | some after_data =>
              if after_data.category ≠ SPECIAL then
                if card_data.category ∉ after_data.can_follow then
                  (false, "'" ++ card_after ++ "' cannot follow '" ++ card_name ++ "'")
                else (true, "")
              else (true, "")
          else (true, "")
        if check2.1 = false then check2
        else
          let cf := can_form_valid_python cards_before card_name
          if cf.1 = false ∧ validate_python_code (filterCode new_sequence) = false then
            (false, "Would create invalid Python: " ++ cf.2)
          else (true, "Valid insertion at position " ++ toString position)

/-- `get_playable_cards_at_position`: hand cards legally insertable at
the given position. -/
def get_playable_cards_at_position (hand played : List String) (position : Nat)
    (last_was_wild : Bool) : List String :=
  hand.filter (fun c => (can_insert_card_at_position c played position last_was_wild).1)

/-- `get_playable_cards`: hand cards playable at the append position.
The `open_paren_count` argument is accepted and ignored, exactly as in
the source (it forwards to the insertion check at position `len`). -/
def get_playable_cards (hand played : List String) (last_was_wild : Bool)
    (open_paren_count : Int) : List String :=
  get_playable_cards_at_position hand played played.length last_was_wild

/-! ### Rendering (`build_python_code`, `build_python_code_formatted`) -/

/-- The keywords that open a new rendered line when they follow a
colon. -/
def statement_starters : List String :=
  ["for", "while", "if", "elif", "else", "def", "class", "try", "except",
   "finally", "with", "return", "print"]

/-- Four spaces per indentation level. -/
def indentStr (n : Nat) : String := String.join (List.replicate n "    ")

/-- The sequential spacing rules of `build_python_code` (each `if`
reassigns `needs_space` in order, including the redundant `not`
rule). -/
def render_needs_space (prev_card : Option String) (category : Option Cat) : Bool :=
  let prev_category := prev_card.bind catOf
  let ns := true
  let ns := if prev_category = some SYNTAX_OPEN then false else ns
  let ns := if category = some SYNTAX_CLOSE then false else ns
  let ns := if category = some SYNTAX_COLON then false else ns
  let ns := if prev_category = some FUNCTION ∧ category = some SYNTAX_OPEN then false else ns
  let ns := if prev_card = some "not" ∧ (category = some VARIABLE ∨ category = some VALUE)
            then true else ns
  let ns := if prev_category = some KEYWORD ∧ category = some SYNTAX_OPEN then false else ns
  ns

/-- Accumulator of the `build_python_code` loop. -/
structure RenderState where
  lines : List String := []
  current : String := ""
  indent : Nat := 0
  in_paren : Nat := 0
  last_was_colon : Bool := false
  prev : Option String := none

/-- One iteration of the `build_python_code` loop body. -/
def renderStep (st : RenderState) (card : String) : RenderState :=
  let category := catOf card
  let (lines, current, lwc) :=
    if st.last_was_colon ∧ card ∈ statement_starters then
      ((if st.current.trim ≠ "" then
          st.lines ++ [indentStr (st.indent - 1) ++ st.current.trim]
        else st.lines), "", false)
    else (st.lines, st.current, st.last_was_colon)
  let current :=
    if current ≠ "" then
      (if render_needs_space st.prev category then current ++ " " else current) ++ card
    else current ++ card
  let in_paren :=
    if category = some SYNTAX_OPEN then st.in_paren + 1
    else if category = some SYNTAX_CLOSE then st.in_paren - 1
    else st.in_paren
  let (indent, lwc) :=
    if category = some SYNTAX_COLON then (st.indent + 1, true) else (st.indent, lwc)
  { lines := lines, current := current, indent := indent, in_paren := in_paren,
    last_was_colon := lwc, prev := some card }

/-- `build_python_code`: render the non-special cards to source text
with the documented spacing and indentation rules; in validation mode
(`for_display = false`) a `pass` placeholder is appended after a
trailing block-opening colon. -/
def build_python_code (played_cards : List String) (pending_card : Option String := none)
    (for_display : Bool := false) : String :=
  let cards := played_cards ++ (match pending_card with | some p => [p] | none => [])
  if cards.isEmpty then ""
  else
    let code_cards := filterCode cards
    if code_cards.isEmpty then ""
    else
      let st := code_cards.foldl renderStep {}
      let lines :=
        if st.current.trim ≠ "" then
          if st.lines ≠ [] then st.lines ++ [indentStr st.indent ++ st.current.trim]
          else [st.current.trim]
        else st.lines
      if lines = [] then ""
      else
        let code := String.intercalate "\n" lines
        if ¬ for_display ∧ (code.trimRight).endsWith ":" then
          code ++ "\n" ++ indentStr st.indent ++ "pass"
        else code

/-- The `structure` record returned by `build_python_code_formatted`
(the empty-input early return omits the last two keys in Python; they
default to `0` / `false` here). -/
structure CodeStructure where
  statements : Nat := 0
  has_loop : Bool := false
  has_condition : Bool := false
  indent_level : Nat := 0
  in_parentheses : Bool := false
deriving DecidableEq, Repr

/-- The spacing rules of `build_python_code_formatted` (an `elif`
chain, without the `not` rule of the plain renderer). -/
def fmt_needs_space (prev_category category : Option Cat) : Bool :=
  if prev_category = some SYNTAX_OPEN then false
  else if category = some SYNTAX_CLOSE then false
  else if category = some SYNTAX_COLON then false
  else if prev_category = some FUNCTION ∧ category = some SYNTAX_OPEN then false
  else if prev_category = some KEYWORD ∧ category = some SYNTAX_OPEN then false
  else true

/-- Accumulator of the `build_python_code_formatted` loop: finished
lines hold their indent and tokens `(space_before, card)`; the current
line keeps each token's category for the spacing rule. -/
structure FmtState where
  lines : List (Nat × List (String × String)) := []
  current : List (String × Option Cat × String) := []
  indent : Nat := 0
  in_paren : Nat := 0
  has_loop : Bool := false
  has_condition : Bool := false
  stmt_count : Nat := 0

/-- One iteration of the `build_python_code_formatted` loop body. -/
def fmtStep (st : FmtState) (card : String) : FmtState :=
  let category := catOf card
  let has_loop := st.has_loop || decide (card ∈ ["for", "while"])
  let has_condition := st.has_condition || decide (card ∈ ["if", "elif", "else"])
  let (lines, current, stmt_count) :=
    if st.current ≠ [] ∧ card ∈ statement_starters ∧ st.in_paren = 0 ∧
        (st.current.getLast?.map (fun t => t.1)) = some ":" then
      (st.lines ++ [(st.indent - 1, st.current.map (fun t => (t.2.2, t.1)))], [],
        st.stmt_count + 1)
    else (st.lines, st.current, st.stmt_count)
  let space_before :=
    match current.getLast? with
    | none => ""
    | some prev => if fmt_needs_space prev.2.1 category then " " else ""
  let current := current ++ [(card, category, space_before)]
  let in_paren :=
    if category = some SYNTAX_OPEN then st.in_paren + 1
    else if category = some SYNTAX_CLOSE then st.in_paren - 1
    else st.in_paren
  let indent := if category = some SYNTAX_COLON then st.indent + 1 else st.indent
  { lines := lines, current := current, indent := indent, in_paren := in_paren,
    has_loop := has_loop, has_condition := has_condition, stmt_count := stmt_count }

/-- `build_python_code_formatted`, reduced to the two outputs the
session snapshot consumes: the formatted code string and the structure
record. -/
def build_python_code_formatted (played_cards : List String) : String × CodeStructure :=
  if played_cards.isEmpty then ("", {})
  else
    let code_cards := filterCode played_cards
    if code_cards.isEmpty then ("", {})
    else
      let st := code_cards.foldl fmtStep {}
      let (lines, stmt_count) :=
        if st.current ≠ [] then
          let is_header := (st.current.getLast?.map (fun t => t.1)) = some ":"
          ((st.lines ++ [((if is_header then st.indent - 1 else st.indent),
             st.current.map (fun t => (t.2.2, t.1)))]), st.stmt_count + 1)
        else (st.lines, st.stmt_count)
      let code_lines := lines.map (fun line =>
        indentStr line.1 ++
          (String.join (line.2.map (fun t => t.1 ++ t.2))).trim)
      let code := String.intercalate "\n" code_lines
      (code, { statements := stmt_count, has_loop := st.has_loop,
               has_condition := st.has_condition, indent_level := st.indent,
               in_parentheses := st.in_paren > 0 })

/-! ### `get_syntax_validation_info` -/

/-- Number of occurrences of a character in a string
(`code.count(ch)`). -/
def countChar (s : String) (c : Char) : Nat := s.toList.count c

/-- `s.endswith(tuple)`. -/
def endsWithAny (s : String) (suffixes : List String) : Bool :=
  suffixes.any (fun suf => s.endsWith suf)

/-- The last known non-special card of the sequence. -/
def lastNonSpecial (played : List String) : Option String :=
  played.reverse.find? (fun c => isKnownCard c && ! is_special_card c)

/-- The record returned by `get_syntax_validation_info`. -/
structure SyntaxInfo where
  code : String
  formatted_code : String
  code_structure : CodeStructure
  is_valid : Bool
  is_complete : Bool
  error : String
  suggestions : List String
deriving DecidableEq, Repr

/-- `get_syntax_validation_info`: validity (via the modelled grammar
checker), completeness and category suggestions for the current played
sequence.  The `error` message of the `ast.parse` oracle is modelled as
a fixed string. -/
def get_syntax_validation_info (played_cards : List String) : SyntaxInfo :=
  let code := build_python_code played_cards
  let is_valid := validate_python_code (filterCode played_cards)
  let error := if is_valid then "" else "invalid syntax"
  let is_complete := is_valid &&
    ! (decide (countChar code '(' > countChar code ')') ||
       endsWithAny (code.trimRight)
         [":", "+", "-", "*", "/", "=", "==", "!=", "<", ">", " in", " and", " or"])
  let suggestions :=
    if code = "" then ["LOOP", "KEYWORD", "FUNCTION", "VARIABLE"]
    else if (code.trimRight).endsWith ":" then ["LOOP", "KEYWORD", "FUNCTION", "VARIABLE"]
    else if countChar code '(' > countChar code ')' then
      ["VALUE", "VARIABLE", "FUNCTION", "SYNTAX_CLOSE"]
    else if (code.trimRight).endsWith " in" then ["FUNCTION", "VARIABLE", "VALUE"]
    else
      match lastNonSpecial played_cards with
      | none => []
      | some c =>
        match catOf c with
        | some LOOP => ["VARIABLE"]
        | some VARIABLE => ["KEYWORD", "OPERATOR", "SYNTAX_COLON"]
        | some KEYWORD => ["VARIABLE", "VALUE", "FUNCTION", "SYNTAX_OPEN"]
        | some FUNCTION => ["SYNTAX_OPEN"]
        | some VALUE => ["OPERATOR", "SYNTAX_CLOSE", "SYNTAX_COLON"]
        | some OPERATOR => ["VALUE", "VARIABLE", "FUNCTION"]
        | some SYNTAX_OPEN => ["VALUE", "VARIABLE", "FUNCTION"]
        | some SYNTAX_CLOSE => ["OPERATOR", "SYNTAX_COLON", "SYNTAX_CLOSE"]
        | _ => []
  let fmt := build_python_code_formatted played_cards
  { code := code, formatted_code := fmt.1, code_structure := fmt.2,
    is_valid := is_valid, is_complete := is_complete, error := error,
    suggestions := suggestions }

/-! ### The session state machine (`GameState`) -/

/-- `GameState.STARTING_HAND_SIZE`. -/
def STARTING_HAND_SIZE : Nat := 7

/-- `GameState.MAX_CONSECUTIVE_PASSES`. -/
def MAX_CONSECUTIVE_PASSES : Nat := 3

/-- `GameState.POWER_INTERVAL`. -/
def POWER_INTERVAL : Nat := 5

/-- The keys of `GameState.POWERS`. -/
def POWER_KEYS : List String := ["peek", "swap", "mulligan", "double_points", "block"]

/-- `GameState.POWERS` as `(key, name, description, icon)` rows. -/
def POWERS_LIST : List (String × String × String × String) :=
  [("peek", "Peek", "See opponent's top 3 cards for 5 seconds", "👁️"),
   ("swap", "Swap", "Exchange 2 cards from hand with deck", "🔄"),
   ("mulligan", "Mulligan", "Discard unplayable cards, draw same amount", "♻️"),
   ("double_points", "Double Points", "Next card played scores 2x points", "⚡"),
   ("block", "Block", "Cancel opponent's next special card", "🛡️")]

/-- `self.last_action`. -/
inductive LastAction where
  | playAct (player card : String) (effect : Option String) (position : Nat)
  | passAct (player : String) (drew_card : Option String)
  | powerAct (player power : String)
deriving DecidableEq, Repr

/-- Association-list lookup (`dict.get` on `player_names`). -/
def alistLookup {α : Type} (key : String) : List (String × α) → Option α
  | [] => none
  | (k, v) :: rest => if k = key then some v else alistLookup key rest

/-- The mutable state of one game session (`GameState.__init__`).
Dicts keyed by player id are total functions whose value at a missing
key is the default `dict.get` would supply.  `consumed` and
`discarded` are ghost accounting fields, never read by any
operation. -/
structure GameState where
  room_code : String
  players : List String := []
  player_names : List (String × String) := []
  hands : String → List String := fun _ => []
  played_cards : List String := []
  scores : String → Nat := fun _ => 0
  current_turn : Nat := 0
  deck : List String := []
  game_started : Bool := false
  game_over : Bool := false
  winner : Option String := none
  consecutive_passes : String → Nat := fun _ => 0
  last_action : Option LastAction := none
  turn_number : Nat := 0
  last_was_wild : Bool := false
  open_paren_count : Int := 0
  power_available : String → Bool := fun _ => false
  active_effects : String → Option String := fun _ => none
  turns_played : String → Nat := fun _ => 0
  power_used_this_turn : String → Bool := fun _ => false
  blocked_players : String → Bool := fun _ => false
  consumed : List String := []
  discarded : List String := []

/-- `a` is a sub-multiset of `b` (what `random.sample` guarantees about
its result relative to its pool). -/
def countLe (a b : List String) : Bool :=
  a.all (fun x => a.count x ≤ b.count x)

/-- Explicit outcomes of the `random` module calls made by the session
operations: `sample k pool`, `shuffle l`, and `randint(0, 1)`. -/
structure Rand where
  sample : Nat → List String → List String
  shuffle : List String → List String
  coin : Nat

/-- What the Python `random` library guarantees about those outcomes:
a sample has `min k (len pool)` elements all drawn from the pool
without replacement, a shuffle is a permutation, the coin is 0 or 1. -/
def Rand.OK (r : Rand) : Prop :=
  (∀ k pool, (r.sample k pool).length = min k pool.length ∧
    countLe (r.sample k pool) pool = true) ∧
  (∀ l, (r.shuffle l).Perm l) ∧ r.coin ≤ 1

/-- A deterministic admissible random source: sampling takes the first
`k` cards, shuffling is the identity, the coin is 0. -/
def takeRand : Rand := ⟨fun k pool => pool.take k, fun l => l, 0⟩

theorem takeRand_OK : takeRand.OK := by
  refine ⟨fun k pool => ⟨by simp [takeRand], ?_⟩, fun l => by simp [takeRand], by simp [takeRand]⟩
  simp only [takeRand, countLe, List.all_eq_true, decide_eq_true_eq]
  intro x _
  exact List.Sublist.count_le (List.take_sublist k pool) x

/-- `add_player`: register a player (at most two, no duplicate ids). -/
def add_player (s : GameState) (player_id : String) (player_name : Option String := none) :
    Bool × GameState :=
  if s.players.length ≥ 2 then (false, s)
  else if player_id ∈ s.players then (false, s)
  else
    let name := player_name.getD ("Player " ++ toString (s.players.length + 1))
    (true, { s with players := s.players ++ [player_id],
                    player_names := s.player_names ++ [(player_id, name)],
                    hands := Function.update s.hands player_id [],
                    scores := Function.update s.scores player_id 0,
                    consecutive_passes := Function.update s.consecutive_passes player_id 0,
                    power_available := Function.update s.power_available player_id false,
                    active_effects := Function.update s.active_effects player_id none,
                    turns_played := Function.update s.turns_played player_id 0,
                    power_used_this_turn := Function.update s.power_used_this_turn player_id false,
                    blocked_players := Function.update s.blocked_players player_id false })

/-- `is_ready`: exactly two players. -/
def is_ready (s : GameState) : Bool := s.players.length = 2

/-- `get_current_player` (`None` when there are no players; Python
would fault on an out-of-range turn index, modelled as `none`). -/
def get_current_player (s : GameState) : Option String :=
  if s.players = [] then none else s.players.get? s.current_turn

/-- `get_opponent`: the first other player. -/
def get_opponent (s : GameState) (player_id : String) : Option String :=
  if player_id ∈ s.players then s.players.find? (fun p => p ≠ player_id)
  else none

/-- `is_player_turn`. -/
def is_player_turn (s : GameState) (player_id : String) : Bool :=
  get_current_player s = some player_id

/-- `next_turn`: credit the leaving player's turn counter, reset their
power-used flag, advance the pointer, and grant the arriving player a
power on every `POWER_INTERVAL`-th turn. -/
def next_turn (s : GameState) : GameState :=
  let s1 :=
    match get_current_player s with
    | some cp =>
      { s with turns_played := Function.update s.turns_played cp (s.turns_played cp + 1),
               power_used_this_turn := Function.update s.power_used_this_turn cp false }
    | none => s
  let s2 := { s1 with current_turn := (s1.current_turn + 1) % 2,
                      turn_number := s1.turn_number + 1 }
  match get_current_player s2 with
  | some nc =>
    let turns := s2.turns_played nc
    if turns > 0 ∧ turns % POWER_INTERVAL = 0 ∧ ¬ s2.power_available nc then
      { s2 with power_available := Function.update s2.power_available nc true }
    else s2
  | none => s2

/-- `start_game`: build and shuffle a deck, deal `STARTING_HAND_SIZE`
cards to each player in join order, pick the first player by coin
toss.  Fails unless exactly two players joined and the game has not
already started. -/
def start_game (s : GameState) (r : Rand) : Bool × GameState :=
  if ¬ is_ready s then (false, s)
  else if s.game_started then (false, s)
  else
    let deck0 := r.shuffle create_deck
    let dealt := s.players.foldl
      (fun (acc : (String → List String) × List String) pid =>
        let dd := draw_cards acc.2 STARTING_HAND_SIZE
        (Function.update acc.1 pid dd.1, dd.2))
      (s.hands, deck0)
    (true, { s with deck := dealt.2, hands := dealt.1, current_turn := r.coin,
                    game_started := true, turn_number := 1 })

/-- `_recalculate_paren_count`: open-parenthesis balance of the played
sequence (no clamping, as in the source). -/
def recalc_paren (played : List String) : Int :=
  played.foldl (fun acc c => if c = "(" then acc + 1 else if c = ")" then acc - 1 else acc) 0

/-- `_check_win_conditions`: once the deck is empty, higher score wins;
on a tie, fewer cards in hand wins; on a full tie, the first player of
the join order wins.  The two-element sorts mirror Python's stable
`sort`: the pair is swapped exactly when the second key strictly
precedes.  (With fewer than two players the Python code would fault on
the index; modelled as `none`.) -/
def check_win_conditions (s : GameState) : Option String :=
  if s.deck = [] then
    match s.players with
    | [p0, p1] =>
      let t0t1 :=
        if s.scores p1 > s.scores p0 then ((p1, s.scores p1), (p0, s.scores p0))
        else ((p0, s.scores p0), (p1, s.scores p1))
      if t0t1.1.2 ≠ t0t1.2.2 then some t0t1.1.1
      else
        let h0h1 :=
          if (s.hands p1).length < (s.hands p0).length then
            ((p1, (s.hands p1).length), (p0, (s.hands p0).length))
          else ((p0, (s.hands p0).length), (p1, (s.hands p1).length))
        if h0h1.1.2 ≠ h0h1.2.2 then some h0h1.1.1
        else some p0
    | _ => none
  else none

/-- Result dict of `pass_turn`. -/
structure PassResult where
  success : Bool := false
  message : String := ""
  drew_card : Option String := none
deriving DecidableEq, Repr

/-- The draw step of a successful pass: take one card off the deck (if
any) into the player's hand; returns the drawn card and the draw
message alongside the new state. -/
def pass_draw (s : GameState) (player_id : String) : (Option String × String) × GameState :=
  if s.deck ≠ [] then
    let dd := draw_cards s.deck 1
    if h : dd.1 ≠ [] then
      ((some (dd.1.head h), "Drew a card: " ++ dd.1.head h),
        { s with deck := dd.2,
                 hands := Function.update s.hands player_id (s.hands player_id ++ dd.1) })
    else ((none, ""), { s with deck := dd.2 })
  else (((none : Option String), ""), s)

/-- The pass-counter / win-check step of a successful pass, applied to
the post-draw state: increment the consecutive-pass counter, record the
action, end the game for the opponent on the third consecutive pass,
then re-check the standard win conditions. -/
def pass_resolve (s1 : GameState) (player_id : String) (drew : Option String)
    (drawMsg : String) : String × GameState :=
  let s2 := { s1 with
    consecutive_passes :=
      Function.update s1.consecutive_passes player_id (s1.consecutive_passes player_id + 1),
    last_action := some (.passAct player_id drew) }
  let msgS3 :=
    if s2.consecutive_passes player_id ≥ MAX_CONSECUTIVE_PASSES then
      match get_opponent s2 player_id with
      | some opp =>
        (drawMsg ++ " | " ++ (alistLookup opp s2.player_names).getD "Opponent" ++
           " wins (opponent couldn't play)!",
         { s2 with game_over := true, winner := some opp })
      | none => (drawMsg, s2)
    else (drawMsg, s2)
  let s3 := msgS3.2
  let s4 :=
    match check_win_conditions s3 with
    | some w => if ¬ s3.game_over then { s3 with game_over := true, winner := some w } else s3
    | none => s3
  (msgS3.1, s4)

/-- The mutation phase of `pass_turn`, entered once every validation
has passed. -/
def pass_turn_commit (s : GameState) (player_id : String) : PassResult × GameState :=
  let drawRes := pass_draw s player_id
  let resolved := pass_resolve drawRes.2 player_id drawRes.1.1 drawRes.1.2
  ({ success := true, message := resolved.1, drew_card := drawRes.1.1 },
   next_turn resolved.2)

/-- `pass_turn`: legal only on the player's turn in a running game with
zero playable cards; draws one card if the deck is non-empty,
increments the consecutive-pass counter, ends the game for the
opponent at `MAX_CONSECUTIVE_PASSES`, re-checks the standard win
conditions, and advances the turn. -/
def pass_turn (s : GameState) (player_id : String) : PassResult × GameState :=
  if ¬ s.game_started then ({ message := "Game has not started yet" }, s)
  else if s.game_over then ({ message := "Game is already over" }, s)
  else if ¬ is_player_turn s player_id then ({ message := "It's not your turn" }, s)
  else
    let playable := get_playable_cards (s.hands player_id) s.played_cards
      s.last_was_wild s.open_paren_count
    if playable ≠ [] then ({ message := "You have valid cards to play" }, s)
    else pass_turn_commit s player_id

/-- Result dict of `play_card` (absent optional keys default to the
values the transport layer would read for them). -/
structure PlayResult where
  success : Bool := false
  message : String := ""
  effect : Option String := none
  points_earned : Nat := 0
  position : Option Int := none
  blocked : Bool := false
  double_points_used : Bool := false
deriving DecidableEq, Repr

/-- The position normalization of `play_card`: an omitted position
appends; a supplied one is clamped into `[0, len]`. -/
def normPos (position : Option Int) (len : Nat) : Nat :=
  match position with
  | none => len
  | some z => (max 0 (min z (len : Int))).toNat

/-- `_apply_special_effect`: the four special-card effects.  `draw_2`
and `discard_2` target the opponent; `wild` arms the bridge flag; every
non-wild effect clears it.  Cards destroyed by `discard_2` are logged
in the ghost `discarded` field. -/
def apply_special_effect (s : GameState) (player_id effect : String) (r : Rand) :
    String × GameState :=
  let opponent := get_opponent s player_id
  if effect = "draw_2" then
    let s := { s with last_was_wild := false }
    match opponent with
    | some o =>
      if s.deck ≠ [] then
        let dd := draw_cards s.deck 2
        ("Opponent draws " ++ toString dd.1.length ++ " cards!",
         { s with deck := dd.2, hands := Function.update s.hands o (s.hands o ++ dd.1) })
      else ("Draw 2 played (deck empty)", s)
    | none => ("Draw 2 played (deck empty)", s)
  else if effect = "discard_2" then
    let s := { s with last_was_wild := false }
    match opponent with
    | some o =>
      if s.hands o ≠ [] then
        let num_discard := min 2 (s.hands o).length
        let chosen := r.sample num_discard (s.hands o)
        ("Opponent discards " ++ toString num_discard ++ " cards!",
         { s with hands := Function.update s.hands o (chosen.foldl (fun h c => h.erase c) (s.hands o)),
                  discarded := s.discarded ++ chosen })
      else ("Discard 2 played (opponent has no cards)", s)
    | none => ("Discard 2 played (opponent has no cards)", s)
  else if effect = "skip" then
    ("Opponent's turn skipped!", { s with last_was_wild := false })
  else if effect = "wild" then
    ("Wild card played! Any card can follow.", { s with last_was_wild := true })
  else ("Special effect applied", s)

/-- The special-card branch of a play: the effect is cancelled (block
consumed) when the player is blocked, applied otherwise; the card never
reaches the played sequence and is logged in the ghost `consumed`
field. -/
def play_card_special (s1 : GameState) (player_id card_name e : String) (pos : Nat)
    (r : Rand) : PlayResult × GameState :=
  if s1.blocked_players player_id then
    ({ effect := some e, position := some (pos : Int), blocked := true,
       message := "Special card '" ++ card_name ++ "' was BLOCKED!" },
     { s1 with blocked_players := Function.update s1.blocked_players player_id false,
               last_was_wild := if e ≠ "wild" then false else s1.last_was_wild,
               consumed := s1.consumed ++ [card_name] })
  else
    let ms := apply_special_effect s1 player_id e r
    ({ effect := some e, position := some (pos : Int), message := ms.1 },
     { ms.2 with consumed := ms.2.consumed ++ [card_name] })

/-- The regular-card branch of a play: insert the card at the
normalized position, score it (doubled by a pending `double_points`
effect), clear the wild bridge, and recompute the parenthesis
balance. -/
def play_card_regular (s1 : GameState) (player_id card_name : String) (pos : Nat) :
    PlayResult × GameState :=
  let splayed := { s1 with played_cards := s1.played_cards.insertIdx pos card_name }
  let dp : Bool := s1.active_effects player_id == some "double_points"
  let points := if dp then get_card_points card_name * 2 else get_card_points card_name
  let s2 :=
    if dp then
      { splayed with active_effects := Function.update splayed.active_effects player_id none }
    else splayed
  let s3 := { s2 with
    scores := Function.update s2.scores player_id (s2.scores player_id + points) }
  let msg0 :=
    if pos = splayed.played_cards.length - 1 then
      "Played '" ++ card_name ++ "' for " ++ toString points ++ " points"
    else
      "Inserted '" ++ card_name ++ "' at position " ++ toString pos ++ " for " ++
        toString points ++ " points"
  let msg := if dp then msg0 ++ " (DOUBLE!)" else msg0
  let s4 := { s3 with last_was_wild := false,
                      open_paren_count := recalc_paren s3.played_cards }
  ({ effect := none, position := some (pos : Int), points_earned := points,
     double_points_used := dp, message := msg }, s4)

/-- The closing phase of a play: check the win conditions (appending
the win message), then advance the turn unless the effect was
`skip`. -/
def play_card_finish (res : PlayResult) (sA : GameState) (effect : Option String) :
    PlayResult × GameState :=
  let winStep :=
    match check_win_conditions sA with
    | some w =>
      ({ res with message := res.message ++ " | " ++
           (alistLookup w sA.player_names).getD w ++ " wins!" },
       { sA with game_over := true, winner := some w })
    | none => (res, sA)
  let sB := if effect ≠ some "skip" then next_turn winStep.2 else winStep.2
  ({ winStep.1 with success := true }, sB)

/-- The mutation phase of `play_card`, entered once every validation
has passed (`pos` is already normalized): remove the card from the
hand, reset the pass counter, resolve the effect or insert and score
the card, record the action, check the win conditions, and advance the
turn unless the effect was `skip`.  Special cards (blocked or not) are
logged in the ghost `consumed` field. -/
def play_card_commit (s : GameState) (player_id card_name : String) (pos : Nat) (r : Rand) :
    PlayResult × GameState :=
  let s1 := { s with
    hands := Function.update s.hands player_id ((s.hands player_id).erase card_name),
    consecutive_passes := Function.update s.consecutive_passes player_id 0 }
  let effect := get_card_effect card_name
  let step2 : PlayResult × GameState :=
    match effect with
    | some e => play_card_special s1 player_id card_name e pos r
    | none => play_card_regular s1 player_id card_name pos
  play_card_finish step2.1
    { step2.2 with last_action := some (.playAct player_id card_name effect pos) } effect

/-- `play_card`: validate (game running, player's turn, card in hand,
position-normalized legality via the insertion check), then commit. -/
def play_card (s : GameState) (player_id card_name : String) (position : Option Int)
    (r : Rand) : PlayResult × GameState :=
  if ¬ s.game_started then ({ message := "Game has not started yet", position := position }, s)
  else if s.game_over then ({ message := "Game is already over", position := position }, s)
  else if ¬ is_player_turn s player_id then
    ({ message := "It's not your turn", position := position }, s)
  else if card_name ∉ s.hands player_id then
    ({ message := "You don't have that card", position := position }, s)
  else
    let pos := normPos position s.played_cards.length
    let ci := can_insert_card_at_position card_name s.played_cards pos s.last_was_wild
    if ci.1 = false then ({ message := ci.2, position := position }, s)
    else play_card_commit s player_id card_name pos r

/-- The `data` dict of a `use_power` result. -/
structure PowerData where
  peeked_cards : List String := []
  swapped_out : List String := []
  swapped_in : List String := []
  discarded : List String := []
  drawn : List String := []
  effect_active : Bool := false
  blocked_player : Option String := none
deriving DecidableEq, Repr

/-- Result dict of `use_power`. -/
structure PowerResult where
  success : Bool := false
  message : String := ""
  power : String
  data : PowerData := {}
deriving DecidableEq, Repr

/-- The five power effects of `use_power`, entered once the guards have
passed.  `swap`, `mulligan` and `block` can still fail without
consuming the power; every other path marks the power used.  Cards
destroyed by `mulligan` are logged in the ghost `discarded` field. -/
def use_power_apply (s : GameState) (player_id power_name : String) (r : Rand) :
    PowerResult × GameState :=
    let opponent := get_opponent s player_id
    let step : Bool × PowerResult × GameState :=
      if power_name = "peek" then
        match opponent with
        | some o =>
          if s.hands o ≠ [] then
            (true, { power := power_name, message := "Peeking at opponent's cards!",
                     data := { peeked_cards := (s.hands o).take 3 } }, s)
          else (true, { power := power_name, message := "Opponent has no cards to peek at" }, s)
        | none => (true, { power := power_name, message := "Opponent has no cards to peek at" }, s)
      else if power_name = "swap" then
        if (s.hands player_id).length ≥ 2 ∧ s.deck.length ≥ 2 then
          let cards_to_swap := r.sample 2 (s.hands player_id)
          let hand1 := cards_to_swap.foldl (fun h c => h.erase c) (s.hands player_id)
          let deck2 := r.shuffle (s.deck ++ cards_to_swap)
          let dd := draw_cards deck2 2
          (true, { power := power_name, message := "Swapped 2 cards with the deck!",
                   data := { swapped_out := cards_to_swap, swapped_in := dd.1 } },
           { s with hands := Function.update s.hands player_id (hand1 ++ dd.1), deck := dd.2 })
        else (false, { power := power_name, message := "Not enough cards to swap" }, s)
      else if power_name = "mulligan" then
        let player_hand := s.hands player_id
        let playable := get_playable_cards player_hand s.played_cards
          s.last_was_wild s.open_paren_count
        let unplayable := player_hand.filter (fun c => c ∉ playable)
        if unplayable ≠ [] ∧ s.deck ≠ [] then
          let hand1 := unplayable.foldl (fun h c => h.erase c) player_hand
          let dd := draw_cards s.deck unplayable.length
          (true, { power := power_name,
                   message := "Discarded " ++ toString unplayable.length ++
                     " unplayable cards and drew new ones!",
                   data := { discarded := unplayable, drawn := dd.1 } },
           { s with hands := Function.update s.hands player_id (hand1 ++ dd.1), deck := dd.2,
                    discarded := s.discarded ++ unplayable })
        else if unplayable = [] then
          (false, { power := power_name, message := "All your cards are playable!" }, s)
        else (false, { power := power_name, message := "Deck is empty" }, s)
      else if power_name = "double_points" then
        (true, { power := power_name, message := "Double Points activated! Next card scores 2x!",
                 data := { effect_active := true } },
         { s with active_effects :=
             Function.update s.active_effects player_id (some "double_points") })
      else
        match opponent with
        | some o =>
          (true, { power := power_name,
                   message := "Block activated! Opponent's next special card will be cancelled!",
                   data := { blocked_player := some o } },
           { s with blocked_players := Function.update s.blocked_players o true })
        | none => (false, { power := power_name, message := "No opponent to block" }, s)
    if step.1 = false then (step.2.1, step.2.2)
    else
      let s1 := step.2.2
      ({ step.2.1 with success := true },
       { s1 with power_available := Function.update s1.power_available player_id false,
                 power_used_this_turn := Function.update s1.power_used_this_turn player_id true,
                 last_action := some (.powerAct player_id power_name) })

/-- `use_power`: guard chain (game running, player's turn, a power
available, none used this turn, known power name), then the power
application. -/
def use_power (s : GameState) (player_id power_name : String) (r : Rand) :
    PowerResult × GameState :=
  if ¬ s.game_started then ({ message := "Game has not started yet", power := power_name }, s)
  else if s.game_over then ({ message := "Game is already over", power := power_name }, s)
  else if ¬ is_player_turn s player_id then
    ({ message := "It's not your turn", power := power_name }, s)
  else if ¬ s.power_available player_id then
    ({ message := "No power available", power := power_name }, s)
  else if s.power_used_this_turn player_id then
    ({ message := "Already used a power this turn", power := power_name }, s)
  else if power_name ∉ POWER_KEYS then ({ message := "Invalid power", power := power_name }, s)
  else use_power_apply s player_id power_name r

/-! ### The per-player state snapshot -/

/-- The dict returned by `get_game_state_for_player`. -/
structure PlayerView where
  room_code : String
  game_started : Bool
  game_over : Bool
  winner : Option String
  winner_name : Option String
  turn_number : Nat
  current_player : Option String
  is_your_turn : Bool
  your_hand : List String
  your_score : Nat
  opponent_card_count : Nat
  opponent_score : Nat
  opponent_name : Option String
  your_name : String
  played_cards : List String
  last_played_card : Option String
  deck_remaining : Nat
  playable_cards : List String
  last_action : Option LastAction
  players_ready : Nat
  last_was_wild : Bool
  open_paren_count : Int
  power_available : Bool
  active_effect : Option String
  turns_played : Nat
  turns_until_power : Nat
  is_blocked : Bool
  powers : List (String × String × String × String)
  syntax_info : SyntaxInfo
deriving DecidableEq, Repr

/-- `get_game_state_for_player`: the snapshot sent to one player — the
player's own hand and playable cards, but of the opponent's hand only
its size. -/
def get_game_state_for_player (s : GameState) (player_id : String) : PlayerView :=
  let opponent := get_opponent s player_id
  let turns_played := s.turns_played player_id
  let tup0 := POWER_INTERVAL - turns_played % POWER_INTERVAL
  let turns_until_power := if tup0 = POWER_INTERVAL ∧ turns_played > 0 then 0 else tup0
  let syntax_info := get_syntax_validation_info s.played_cards
  { room_code := s.room_code,
    game_started := s.game_started,
    game_over := s.game_over,
    winner := s.winner,
    winner_name := match s.winner with | some w => alistLookup w s.player_names | none => none,
    turn_number := s.turn_number,
    current_player := get_current_player s,
    is_your_turn := is_player_turn s player_id,
    your_hand := s.hands player_id,
    your_score := s.scores player_id,
    opponent_card_count := match opponent with | some o => (s.hands o).length | none => 0,
    opponent_score := match opponent with | some o => s.scores o | none => 0,
    opponent_name :=
      match opponent with
      | some o => some ((alistLookup o s.player_names).getD "Opponent")
      | none => none,
    your_name := (alistLookup player_id s.player_names).getD "You",
    played_cards := s.played_cards,
    last_played_card := s.played_cards.getLast?,
    deck_remaining := s.deck.length,
    playable_cards := get_playable_cards (s.hands player_id) s.played_cards
      s.last_was_wild s.open_paren_count,
    last_action := s.last_action,
    players_ready := s.players.length,
    last_was_wild := s.last_was_wild,
    open_paren_count := s.open_paren_count,
    power_available := s.power_available player_id,
    active_effect := s.active_effects player_id,
    turns_played := turns_played,
    turns_until_power := turns_until_power,
    is_blocked := s.blocked_players player_id,
    powers := POWERS_LIST,
    syntax_info := syntax_info }

/-! ### Supporting lemmas -/

theorem next_turn_spec (s : GameState) : ∃ tp pu pa, next_turn s =
    { s with turns_played := tp, power_used_this_turn := pu,
             current_turn := (s.current_turn + 1) % 2, turn_number := s.turn_number + 1,
             power_available := pa } := by
  unfold next_turn
  split
  · dsimp only
    split
    · split
      · exact ⟨_, _, _, rfl⟩
      · exact ⟨_, _, _, rfl⟩
    · exact ⟨_, _, _, rfl⟩
  · dsimp only
    split
    · split
      · exact ⟨_, _, _, rfl⟩
      · exact ⟨_, _, _, rfl⟩
    · exact ⟨_, _, _, rfl⟩

theorem get_opponent_spec {s : GameState} {p o : String} (h : get_opponent s p = some o) :
    o ∈ s.players ∧ o ≠ p := by
  unfold get_opponent at h
  split at h
  · refine ⟨List.mem_of_find?_eq_some h, ?_⟩
    have := List.find?_some h
    simpa using this
  · cases h

theorem get_opponent_players (t s : GameState) (h : t.players = s.players) (pid : String) :
    get_opponent t pid = get_opponent s pid := by
  simp [get_opponent, h]

theorem get_opponent_pair {s : GameState} {p q : String} (hpq : s.players = [p, q])
    (hne : q ≠ p) : get_opponent s p = some q := by
  simp [get_opponent, hpq, hne]

theorem current_player_mem {s : GameState} {p : String} (h : get_current_player s = some p) :
    p ∈ s.players := by
  unfold get_current_player at h
  split at h
  · cases h
  · exact List.get?_mem h

theorem is_player_turn_iff {s : GameState} {p : String} :
    is_player_turn s p = true ↔ get_current_player s = some p := by
  simp [is_player_turn]

theorem cardLookup_mem {n : String} {c : Card} :
    ∀ {l : List (String × Card)}, cardLookup n l = some c → (n, c) ∈ l := by
  intro l
  induction l with
  | nil => intro h; cases h
  | cons kv rest ih =>
    intro h
    unfold cardLookup at h
    split at h
    · injection h with h2
      subst h2
      rename_i heq
      subst heq
      exact List.mem_cons_self _ _
    · exact List.mem_cons_of_mem _ (ih h)

theorem countLe_iff {a b : List String} :
    countLe a b = true ↔ ∀ x ∈ a, a.count x ≤ b.count x := by
  simp [countLe, List.all_eq_true]

theorem countLe_cons {c : String} {t hand : List String} (h : countLe (c :: t) hand = true) :
    countLe t (hand.erase c) = true ∧ c ∈ hand := by
  rw [countLe_iff] at h
  have hc : c ∈ hand := by
    have := h c (List.mem_cons_self _ _)
    rw [List.count_cons_self] at this
    exact List.count_pos_iff.mp (by omega)
  refine ⟨countLe_iff.mpr ?_, hc⟩
  intro x hx
  by_cases hxc : x = c
  · subst hxc
    have := h x (List.mem_cons_self _ _)
    rw [List.count_cons_self] at this
    rw [List.count_erase_self]
    omega
  · have h1 := h x (List.mem_cons_of_mem _ hx)
    rw [List.count_cons_of_ne hxc] at h1
    rw [List.count_erase_of_ne hxc]
    omega

theorem foldl_erase_length : ∀ (pick hand : List String), countLe pick hand = true →
    (pick.foldl (fun acc c => acc.erase c) hand).length + pick.length = hand.length := by
  intro pick
  induction pick with
  | nil => intro hand _; simp
  | cons c t ih =>
    intro hand h
    obtain ⟨ht, hc⟩ := countLe_cons h
    have h2 := ih (hand.erase c) ht
    have hlen := List.length_erase_of_mem hc
    have hpos : 0 < hand.length := List.length_pos.mpr (List.ne_nil_of_mem hc)
    simp only [List.foldl_cons]
    simp only [List.length_cons]
    omega

/-- Total number of cards held in the listed players' hands. -/
def hands_total (players : List String) (hands : String → List String) : Nat :=
  (players.map (fun p => (hands p).length)).sum

theorem hands_total_update (hands : String → List String)
    {players : List String} {p : String} (v : List String)
    (hnd : players.Nodup) (hp : p ∈ players) :
    hands_total players (Function.update hands p v) + (hands p).length
      = hands_total players hands + v.length := by
  induction players with
  | nil => cases hp
  | cons a t ih =>
    rcases List.nodup_cons.mp hnd with ⟨hat, hndt⟩
    rcases List.mem_cons.mp hp with rfl | hpt
    · have hmap : t.map (fun q => ((Function.update hands p v) q).length)
          = t.map (fun q => (hands q).length) := by
        apply List.map_congr_left
        intro q hq
        have hqp : q ≠ p := by
          intro e
          exact hat (by rw [← e]; exact hq)
        rw [Function.update_noteq hqp]
      simp only [hands_total, List.map_cons, List.sum_cons, hmap, Function.update_same]
      omega
    · have hap : a ≠ p := by
        intro e
        exact hat (by rw [e]; exact hpt)
      have h2 := ih hndt hpt
      simp only [hands_total, List.map_cons, List.sum_cons] at h2 ⊢
      rw [Function.update_noteq hap]
      omega

theorem countLe_filter (p : String → Bool) (l : List String) :
    countLe (l.filter p) l = true := by
  rw [countLe_iff]
  intro x _
  exact List.Sublist.count_le (List.filter_sublist l) x

theorem next_turn_fields (s : GameState) :
    (next_turn s).players = s.players
    ∧ (next_turn s).hands = s.hands
    ∧ (next_turn s).deck = s.deck
    ∧ (next_turn s).played_cards = s.played_cards
    ∧ (next_turn s).consumed = s.consumed
    ∧ (next_turn s).discarded = s.discarded
    ∧ (next_turn s).last_was_wild = s.last_was_wild
    ∧ (next_turn s).winner = s.winner
    ∧ (next_turn s).game_over = s.game_over
    ∧ (next_turn s).consecutive_passes = s.consecutive_passes
    ∧ (next_turn s).current_turn = (s.current_turn + 1) % 2 := by
  obtain ⟨tp, pu, pa, h⟩ := next_turn_spec s
  rw [h]
  exact ⟨rfl, rfl, rfl, rfl, rfl, rfl, rfl, rfl, rfl, rfl, rfl⟩

theorem play_card_finish_fields (res : PlayResult) (sA : GameState) (eff : Option String) :
    (play_card_finish res sA eff).2.players = sA.players
    ∧ (play_card_finish res sA eff).2.hands = sA.hands
    ∧ (play_card_finish res sA eff).2.deck = sA.deck
    ∧ (play_card_finish res sA eff).2.played_cards = sA.played_cards
    ∧ (play_card_finish res sA eff).2.consumed = sA.consumed
    ∧ (play_card_finish res sA eff).2.discarded = sA.discarded
    ∧ (play_card_finish res sA eff).2.last_was_wild = sA.last_was_wild := by
  simp only [play_card_finish]
  split <;> split <;> simp [next_turn_fields]

theorem play_card_finish_turn (res : PlayResult) (sA : GameState) (eff : Option String)
    (hne : eff ≠ some "skip") :
    (play_card_finish res sA eff).2.current_turn = (sA.current_turn + 1) % 2 := by
  simp only [play_card_finish]
  rw [if_pos hne]
  rw [(next_turn_fields _).2.2.2.2.2.2.2.2.2.2]
  split <;> rfl

theorem play_card_commit_success (s : GameState) (p c : String) (pos : Nat) (r : Rand) :
    (play_card_commit s p c pos r).1.success = true := rfl

theorem pass_turn_commit_success (s : GameState) (p : String) :
    (pass_turn_commit s p).1.success = true := rfl

theorem special_card_lookup {name : String} (hs : is_special_card name = true) :
    ∃ cd, card? name = some cd ∧ cd.category = SPECIAL := by
  unfold is_special_card at hs
  split at hs
  · cases hs
  · rename_i cd hcd
    exact ⟨cd, hcd, by simpa using hs⟩

theorem special_card_effect {name : String} (hs : is_special_card name = true) :
    ∃ e, get_card_effect name = some e := by
  obtain ⟨cd, hcd, hcat⟩ := special_card_lookup hs
  have hmem := cardLookup_mem hcd
  have hfact : ∀ kv ∈ CARDS, kv.2.category = SPECIAL → kv.2.effect.isSome := by decide
  obtain ⟨e, he⟩ := Option.isSome_iff_exists.mp (hfact (name, cd) hmem hcat)
  refine ⟨e, ?_⟩
  simp only [get_card_effect, hcd]
  exact he

theorem apply_special_played (s : GameState) (pid e : String) (r : Rand) :
    (apply_special_effect s pid e r).2.played_cards = s.played_cards := by
  simp only [apply_special_effect]
  repeat' split
  all_goals rfl

theorem normPos_le (posn : Option Int) (len : Nat) : normPos posn len ≤ len := by
  cases posn with
  | none => simp [normPos]
  | some z =>
    simp only [normPos]
    omega

/-- The ghost-free part of the claimed card sum: cards in the two
hands, the deck, the played sequence, and the consumed specials. -/
def claimed_total (s : GameState) : Nat :=
  hands_total s.players s.hands + s.deck.length + s.played_cards.length + s.consumed.length

/-- The full card sum: the claimed sum extended by the cards destroyed
by `discard_2` and `mulligan` (the ghost `discarded` log). -/
def card_total (s : GameState) : Nat :=
  claimed_total s + s.discarded.length

/-! ### The claims -/

/-- C2: the per-player snapshot reveals nothing about the opponent's
hand beyond its size — two session states that differ only in the
opponent's hand contents (same hand size) yield identical snapshots
for the player.  (No peek data is part of the snapshot; the peek power
result flows only through the `use_power` result.) -/
theorem C2_snapshot_hides_opponent_hand (s : GameState) (p o : String) (h2 : List String)
    (hst : s.game_started = true)
    (ho : get_opponent s p = some o)
    (hlen : h2.length = (s.hands o).length) :
    get_game_state_for_player { s with hands := Function.update s.hands o h2 } p
      = get_game_state_for_player s p := by
  have hop : o ≠ p := (get_opponent_spec ho).2
  have hpo : p ≠ o := Ne.symm hop
  have hupd : Function.update s.hands o h2 p = s.hands p := Function.update_noteq hpo _ _
  have ho2 : get_opponent { s with hands := Function.update s.hands o h2 } p = some o :=
    (get_opponent_players _ s rfl p).trans ho
  simp [get_game_state_for_player, ho, ho2, hupd, hlen, Function.update_same]
  exact ⟨rfl, rfl⟩

/-- A started two-player session for the snapshot-blindness witness. -/
def stateC2 : GameState := {
  room_code := "C2",
  players := ["A", "B"],
  player_names := [("A", "PA"), ("B", "PB")],
  hands := fun p => if p = "A" then ["x"] else ["x", "i"],
  deck := ["n"],
  game_started := true }

/-- C2, witness: replacing B's hand `[x, i]` by `[n, 1]` (same size)
leaves A's snapshot unchanged. -/
theorem C2_snapshot_hides_opponent_hand_witness :
    get_game_state_for_player
        { stateC2 with hands := Function.update stateC2.hands "B" ["n", "1"] } "A"
      = get_game_state_for_player stateC2 "A" :=
  C2_snapshot_hides_opponent_hand stateC2 "A" "B" ["n", "1"] rfl (by decide) (by decide)

/-- A started two-player session used to exhibit the card-count leak of
the `discard_2` effect: A holds only `Discard 2`, B holds two regular
cards, one card remains in the deck. -/
def stateC1 : GameState := {
  room_code := "C1",
  players := ["A", "B"],
  player_names := [("A", "PA"), ("B", "PB")],
  hands := fun p => if p = "A" then ["Discard 2"] else ["x", "i"],
  deck := ["n"],
  game_started := true }

/-- C1, counterexample: the claimed sum `handSize(p1) + handSize(p2) +
len(deck) + len(playedSequence) + specialCardsConsumed` is NOT
invariant: a successful `play_card` of `Discard 2` destroys the two
cards the opponent discards (they enter neither the played sequence
nor the deck), dropping the sum from 4 to 2. -/
theorem C1_counterexample :
    (play_card stateC1 "A" "Discard 2" none takeRand).1.success = true
    ∧ claimed_total stateC1 = 4
    ∧ claimed_total (play_card stateC1 "A" "Discard 2" none takeRand).2 = 2 := by
  decide

/-- A started two-player session with player A to move and holding
`Wild`, a regular card and `Skip`. -/
def stateC3 : GameState := {
  room_code := "C3",
  players := ["A", "B"],
  player_names := [("A", "PA"), ("B", "PB")],
  hands := fun p => if p = "A" then ["Wild", "x", "Skip"] else ["i", "n"],
  deck := ["n"],
  game_started := true }

/-- C3, counterexample: the wild-bridge flag is a single session-wide
boolean, and playing `Wild` advances the turn; so after A plays Wild
the flag is set while it is B's turn — the waived legality check
belongs to the opponent, not to the player who played Wild. -/
theorem C3_counterexample :
    stateC3.last_was_wild = false
    ∧ (play_card stateC3 "A" "Wild" none takeRand).1.success = true
    ∧ (play_card stateC3 "A" "Wild" none takeRand).2.last_was_wild = true
    ∧ get_current_player (play_card stateC3 "A" "Wild" none takeRand).2 = some "B" := by
  decide

theorem apply_special_current_turn (s : GameState) (pid e : String) (r : Rand) :
    (apply_special_effect s pid e r).2.current_turn = s.current_turn := by
  simp only [apply_special_effect]
  repeat' split
  all_goals rfl

theorem apply_special_wild_set (s : GameState) (pid : String) (r : Rand) :
    (apply_special_effect s pid "wild" r).2.last_was_wild = true := by
  simp [apply_special_effect]

theorem apply_special_nonwild_clear (s : GameState) (pid e : String) (r : Rand)
    (he : e ∈ ["draw_2", "discard_2", "skip"]) :
    (apply_special_effect s pid e r).2.last_was_wild = false := by
  simp only [List.mem_cons, List.mem_singleton, List.not_mem_nil, or_false] at he
  rcases he with rfl | rfl | rfl
  · simp only [apply_special_effect]
    repeat' split
    all_goals first | rfl | simp_all
  · simp only [apply_special_effect]
    repeat' split
    all_goals first | rfl | simp_all
  · simp only [apply_special_effect]
    repeat' split
    all_goals first | rfl | simp_all

/-- C3 (amended): the wild bridge is a session-wide flag, not a
per-player one.  After a successful unblocked `Wild` play the flag is
set and the turn advances to the opponent, so the waived
category-adjacency check belongs to the opponent's next legality
check; the flag is cleared by any successful regular play and by any
successful non-wild special effect. -/
theorem C3_wild_bridge_session_flag :
    (∀ s p posn r, (play_card s p "Wild" posn r).1.success = true →
       s.blocked_players p = false →
       (play_card s p "Wild" posn r).2.last_was_wild = true
       ∧ (play_card s p "Wild" posn r).2.current_turn = (s.current_turn + 1) % 2)
    ∧ (∀ s p c posn r, get_card_effect c = none →
       (play_card s p c posn r).1.success = true →
       (play_card s p c posn r).2.last_was_wild = false)
    ∧ (∀ s p c posn r e, get_card_effect c = some e →
       e ∈ ["draw_2", "discard_2", "skip"] →
       (play_card s p c posn r).1.success = true →
       (play_card s p c posn r).2.last_was_wild = false) := by
  have hw : get_card_effect "Wild" = some "wild" := by decide
  refine ⟨?_, ?_, ?_⟩
  · intro s p posn r hsucc hblock
    revert hsucc
    simp only [play_card]
    split
    · intro h; simp at h
    · split
      · intro h; simp at h
      · split
        · intro h; simp at h
        · split
          · intro h; simp at h
          · split
            · intro h; simp at h
            · intro _
              simp only [play_card_commit, hw]
              constructor
              · rw [(play_card_finish_fields _ _ _).2.2.2.2.2.2]
                simp only [play_card_special]
                rw [if_neg (by simp [hblock] : ¬ _)]
                simp [apply_special_wild_set]
              · rw [play_card_finish_turn _ _ _ (by decide)]
                simp only [play_card_special]
                rw [if_neg (by simp [hblock] : ¬ _)]
                simp [apply_special_current_turn]
  · intro s p c posn r he hsucc
    revert hsucc
    simp only [play_card]
    split
    · intro h; simp at h
    · split
      · intro h; simp at h
      · split
        · intro h; simp at h
        · split
          · intro h; simp at h
          · split
            · intro h; simp at h
            · intro _
              simp only [play_card_commit, he]
              rw [(play_card_finish_fields _ _ _).2.2.2.2.2.2]
              rfl
  · intro s p c posn r e he hmem hsucc
    revert hsucc
    simp only [play_card]
    split
    · intro h; simp at h
    · split
      · intro h; simp at h
      · split
        · intro h; simp at h
        · split
          · intro h; simp at h
          · split
            · intro h; simp at h
            · intro _
              simp only [play_card_commit, he]
              rw [(play_card_finish_fields _ _ _).2.2.2.2.2.2]
              simp only [play_card_special]
              split
              · have hne : e ≠ "wild" := by
                  simp only [List.mem_cons, List.mem_singleton, List.not_mem_nil,
                    or_false] at hmem
                  rcases hmem with rfl | rfl | rfl <;> decide
                simp [hne]
              · simp [apply_special_nonwild_clear _ _ _ _ hmem]

/-- C3, witness: on `stateC3`, playing `Wild` sets the flag and hands
the turn to the opponent; playing the regular card `x` or the special
`Skip` leaves the flag cleared. -/
theorem C3_wild_bridge_session_flag_witness :
    ((play_card stateC3 "A" "Wild" none takeRand).2.last_was_wild = true
      ∧ (play_card stateC3 "A" "Wild" none takeRand).2.current_turn
          = (stateC3.current_turn + 1) % 2)
    ∧ (play_card stateC3 "A" "x" none takeRand).2.last_was_wild = false
    ∧ (play_card stateC3 "A" "Skip" none takeRand).2.last_was_wild = false :=
  ⟨C3_wild_bridge_session_flag.1 stateC3 "A" none takeRand (by decide) (by decide),
   C3_wild_bridge_session_flag.2.1 stateC3 "A" "x" none takeRand (by decide) (by decide),
   C3_wild_bridge_session_flag.2.2 stateC3 "A" "Skip" none takeRand "skip" (by decide)
     (by decide) (by decide)⟩

/-- A started two-player session whose played sequence `print ( x )`
has a fully balanced parenthesis count (`openParenCount = 0`), with
player A to move holding a close-parenthesis card. -/
def stateC4 : GameState := {
  room_code := "C4",
  players := ["A", "B"],
  player_names := [("A", "PA"), ("B", "PB")],
  hands := fun p => if p = "A" then [")"] else ["x"],
  played_cards := ["print", "(", "x", ")"],
  open_paren_count := 0,
  deck := ["n"],
  game_started := true }

/-- C4: the claim (and the repository's own test 7) say a CLOSE_PAREN
is never legal when `openParenCount == 0`; but
`can_insert_card_at_position` — the check used by `play_card` and by
`get_playable_cards` — never consults the open-parenthesis count, so
`')'` is accepted: here a play of `')'` at position 3 succeeds although
the session's `openParenCount` is 0, and `')'` is reported playable by
`get_playable_cards` with `open_paren_count = 0` (the call shape of
test 7 in `test_improvements.py`). -/
theorem C4_close_paren_guard_missing :
    stateC4.open_paren_count = 0
    ∧ recalc_paren stateC4.played_cards = 0
    ∧ (play_card stateC4 "A" ")" (some 3) takeRand).1.success = true
    ∧ (can_insert_card_at_position ")" stateC4.played_cards 3 false).1 = true
    ∧ ")" ∈ get_playable_cards [")"] ["print", "(", "x"] false 0
    ∧ can_play_card ")" stateC4.played_cards false 0 = false := by
  decide

/-- C6: when the deck is empty, `_check_win_conditions` names the
strictly-higher-scoring player; on a score tie the player with strictly
fewer cards in hand; and on a full tie the player at index 0 of the
join order. -/
theorem C6_deck_exhaustion_tiebreak (s : GameState) (p0 p1 : String)
    (hp : s.players = [p0, p1]) (hd : s.deck = []) :
    check_win_conditions s = some (
      if s.scores p0 > s.scores p1 then p0
      else if s.scores p1 > s.scores p0 then p1
      else if (s.hands p0).length < (s.hands p1).length then p0
      else if (s.hands p1).length < (s.hands p0).length then p1
      else p0) := by
  unfold check_win_conditions
  rw [hp, if_pos hd]
  dsimp only
  by_cases hs : s.scores p1 > s.scores p0
  · rw [if_pos hs]
    dsimp only
    rw [if_pos (by omega : s.scores p1 ≠ s.scores p0)]
    rw [if_neg (by omega : ¬ s.scores p0 > s.scores p1), if_pos hs]
  · rw [if_neg hs]
    dsimp only
    by_cases hne : s.scores p0 ≠ s.scores p1
    · rw [if_pos hne, if_pos (by omega : s.scores p0 > s.scores p1)]
    · rw [if_neg hne]
      rw [if_neg (by omega : ¬ s.scores p0 > s.scores p1)]
      rw [if_neg (by omega : ¬ s.scores p1 > s.scores p0)]
      by_cases hh : (s.hands p1).length < (s.hands p0).length
      · rw [if_pos hh]
        dsimp only
        rw [if_pos (by omega : (s.hands p1).length ≠ (s.hands p0).length)]
        rw [if_neg (by omega : ¬ (s.hands p0).length < (s.hands p1).length), if_pos hh]
      · rw [if_neg hh]
        dsimp only
        by_cases hne2 : (s.hands p0).length ≠ (s.hands p1).length
        · rw [if_pos hne2, if_pos (by omega : (s.hands p0).length < (s.hands p1).length)]
        · rw [if_neg hne2]
          rw [if_neg (by omega : ¬ (s.hands p0).length < (s.hands p1).length)]
          rw [if_neg (by omega : ¬ (s.hands p1).length < (s.hands p0).length)]

theorem play_card_commit_special_played {c e : String} (he : get_card_effect c = some e)
    (s : GameState) (p : String) (pos : Nat) (r : Rand) :
    (play_card_commit s p c pos r).2.played_cards = s.played_cards := by
  simp only [play_card_commit, he]
  rw [(play_card_finish_fields _ _ _).2.2.2.1]
  simp only [play_card_special]
  split
  · rfl
  · simp [apply_special_played]

/-- C9: a SPECIAL card passes every legality check — the insertion
check at any position and the append check in any context — and a
successful play of a SPECIAL card never modifies the played sequence
(Wild included: the card is consumed from the hand without being
appended). -/
theorem C9_special_always_legal_never_played (name : String)
    (hs : is_special_card name = true) :
    (∀ played position wild, (can_insert_card_at_position name played position wild).1 = true)
    ∧ (∀ played wild paren flex, can_play_card name played wild paren flex = true)
    ∧ (∀ s p posn r, (play_card s p name posn r).1.success = true →
        (play_card s p name posn r).2.played_cards = s.played_cards) := by
  obtain ⟨cd, hcd, hcat⟩ := special_card_lookup hs
  obtain ⟨e, he⟩ := special_card_effect hs
  refine ⟨?_, ?_, ?_⟩
  · intro played position wild
    simp [can_insert_card_at_position, hcd, hcat]
  · intro played wild paren flex
    simp [can_play_card, hcd, hcat]
  · intro s p posn r _
    simp only [play_card]
    split
    · rfl
    · split
      · rfl
      · split
        · rfl
        · split
          · rfl
          · split
            · rfl
            · exact play_card_commit_special_played he s p _ r

/-- A started two-player session with player A to move holding a
`Skip` card and a non-empty played sequence. -/
def stateC9 : GameState := {
  room_code := "C9",
  players := ["A", "B"],
  hands := fun p => if p = "A" then ["Skip"] else ["x"],
  played_cards := ["x"],
  deck := ["n"],
  game_started := true }

/-- C9, witness: `Wild` is accepted by both legality checks on a
concrete sequence, and a successful play of `Skip` leaves the played
sequence untouched. -/
theorem C9_special_always_legal_never_played_witness :
    (can_insert_card_at_position "Wild" ["x"] 1 false).1 = true
    ∧ can_play_card "Wild" ["x"] false 0 true = true
    ∧ (play_card stateC9 "A" "Skip" none takeRand).2.played_cards = stateC9.played_cards :=
  ⟨(C9_special_always_legal_never_played "Wild" (by decide)).1 ["x"] 1 false,
   (C9_special_always_legal_never_played "Wild" (by decide)).2.1 ["x"] false 0 true,
   (C9_special_always_legal_never_played "Skip" (by decide)).2.2 stateC9 "A" none takeRand
     (by decide)⟩

/-- A play result with its echoed `position` field blanked: the raw
result dict echoes the caller's un-normalized position on early
failures, so position-insensitivity is stated modulo that echo. -/
def stripPos (pr : PlayResult × GameState) : PlayResult × GameState :=
  ({ pr.1 with position := none }, pr.2)

/-- C10: `play_card` never fails because of an out-of-range position:
a supplied position is clamped into `[0, len(playedSequence)]`
(negative values to 0, values past the end to an append), so a call
with any integer position behaves — in success, message, points,
effect and resulting state — exactly like the call with the clamped
position, and an omitted position behaves like appending at the
end. -/
theorem C10_position_clamped (s : GameState) (p c : String) (r : Rand) (z : Int) :
    stripPos (play_card s p c (some z) r)
      = stripPos (play_card s p c (some (max 0 (min z (s.played_cards.length : Int)))) r)
    ∧ stripPos (play_card s p c none r)
      = stripPos (play_card s p c (some (s.played_cards.length : Int)) r)
    ∧ 0 ≤ max 0 (min z (s.played_cards.length : Int))
    ∧ max 0 (min z (s.played_cards.length : Int)) ≤ (s.played_cards.length : Int) := by
  refine ⟨?_, ?_, le_max_left 0 _, by omega⟩
  · have hnp : normPos (some (max 0 (min z (s.played_cards.length : Int)))) s.played_cards.length
        = normPos (some z) s.played_cards.length := by
      simp only [normPos]
      omega
    simp only [play_card, hnp]
    split
    · simp [stripPos]
    · split
      · simp [stripPos]
      · split
        · simp [stripPos]
        · split
          · simp [stripPos]
          · split
            · simp [stripPos]
            · rfl
  · have hnp : normPos (some (s.played_cards.length : Int)) s.played_cards.length
        = normPos none s.played_cards.length := by
      simp only [normPos]
      omega
    simp only [play_card, hnp]
    split
    · simp [stripPos]
    · split
      · simp [stripPos]
      · split
        · simp [stripPos]
        · split
          · simp [stripPos]
          · split
            · simp [stripPos]
            · rfl

/-- C8: a failing `play_card`, `pass_turn` or `use_power` call leaves
the entire session state unchanged — hands, deck, scores, played
sequence, turn pointer, counters and flags are identical before and
after the failed call (no partial mutation). -/
theorem C8_failure_leaves_state_unchanged :
    (∀ s p c posn r, (play_card s p c posn r).1.success = false →
      (play_card s p c posn r).2 = s)
    ∧ (∀ s p, (pass_turn s p).1.success = false → (pass_turn s p).2 = s)
    ∧ (∀ s p pw r, (use_power s p pw r).1.success = false → (use_power s p pw r).2 = s) := by
  refine ⟨?_, ?_, ?_⟩
  · intro s p c posn r
    simp only [play_card]
    split
    · intro _; rfl
    · split
      · intro _; rfl
      · split
        · intro _; rfl
        · split
          · intro _; rfl
          · split
            · intro _; rfl
            · intro h
              rw [play_card_commit_success] at h
              cases h
  · intro s p
    simp only [pass_turn]
    split
    · intro _; rfl
    · split
      · intro _; rfl
      · split
        · intro _; rfl
        · split
          · intro _; rfl
          · intro h
            rw [pass_turn_commit_success] at h
            cases h
  · intro s p pw r
    simp only [use_power]
    split
    · intro _; rfl
    · split
      · intro _; rfl
      · split
        · intro _; rfl
        · split
          · intro _; rfl
          · split
            · intro _; rfl
            · split
              · intro _; rfl
              · simp only [use_power_apply]
                repeat' split
                all_goals intro h
                all_goals first | rfl | simp_all

/-- A session in which the game has not started: every operation must
fail. -/
def stateC8 : GameState := {
  room_code := "C8",
  players := ["A", "B"],
  hands := fun _ => ["x"],
  game_started := false }

/-- C8, witness: on the not-yet-started `stateC8` each of the three
operations fails and returns the state unchanged. -/
theorem C8_failure_leaves_state_unchanged_witness :
    (play_card stateC8 "A" "x" none takeRand).2 = stateC8
    ∧ (pass_turn stateC8 "A").2 = stateC8
    ∧ (use_power stateC8 "A" "peek" takeRand).2 = stateC8 :=
  ⟨C8_failure_leaves_state_unchanged.1 stateC8 "A" "x" none takeRand (by decide),
   C8_failure_leaves_state_unchanged.2.1 stateC8 "A" (by decide),
   C8_failure_leaves_state_unchanged.2.2 stateC8 "A" "peek" takeRand (by decide)⟩

theorem pass_draw_fields (s : GameState) (pid : String) :
    (pass_draw s pid).2.players = s.players
    ∧ (pass_draw s pid).2.player_names = s.player_names
    ∧ (pass_draw s pid).2.consecutive_passes = s.consecutive_passes
    ∧ (pass_draw s pid).2.game_over = s.game_over
    ∧ (pass_draw s pid).2.winner = s.winner
    ∧ (pass_draw s pid).2.played_cards = s.played_cards
    ∧ (pass_draw s pid).2.consumed = s.consumed
    ∧ (pass_draw s pid).2.discarded = s.discarded := by
  simp only [pass_draw]
  repeat' split
  all_goals exact ⟨rfl, rfl, rfl, rfl, rfl, rfl, rfl, rfl⟩

theorem pass_resolve_fields (s1 : GameState) (pid : String) (drew : Option String)
    (msg : String) :
    (pass_resolve s1 pid drew msg).2.players = s1.players
    ∧ (pass_resolve s1 pid drew msg).2.hands = s1.hands
    ∧ (pass_resolve s1 pid drew msg).2.deck = s1.deck
    ∧ (pass_resolve s1 pid drew msg).2.played_cards = s1.played_cards
    ∧ (pass_resolve s1 pid drew msg).2.consumed = s1.consumed
    ∧ (pass_resolve s1 pid drew msg).2.discarded = s1.discarded
    ∧ (pass_resolve s1 pid drew msg).2.consecutive_passes
        = Function.update s1.consecutive_passes pid (s1.consecutive_passes pid + 1) := by
  simp only [pass_resolve]
  repeat' split
  all_goals exact ⟨rfl, rfl, rfl, rfl, rfl, rfl, rfl⟩

theorem draw_one_ne_nil {deck : List String} (h : deck ≠ []) :
    (draw_cards deck 1).1 ≠ [] := by
  have hl := draw_cards_fst_length deck 1
  intro hnil
  rw [hnil] at hl
  simp at hl
  have : deck.length ≠ 0 := fun e => h (List.length_eq_zero.mp e)
  omega

theorem pass_draw_empty {s : GameState} (pid : String) (h : s.deck = []) :
    pass_draw s pid = ((none, ""), s) := by
  simp [pass_draw, h]

theorem pass_draw_nonempty {s : GameState} (pid : String) (h : s.deck ≠ []) :
    (pass_draw s pid).2.hands pid = s.hands pid ++ (draw_cards s.deck 1).1
    ∧ (pass_draw s pid).2.deck = (draw_cards s.deck 1).2
    ∧ (pass_draw s pid).1.1.isSome := by
  simp only [pass_draw]
  rw [if_pos h]
  rw [dif_pos (draw_one_ne_nil h)]
  exact ⟨Function.update_same _ _ _, rfl, rfl⟩

theorem pass_resolve_streak {s1 : GameState} {pid opp : String} (drew : Option String)
    (msg : String)
    (hpasses : s1.consecutive_passes pid + 1 ≥ MAX_CONSECUTIVE_PASSES)
    (hopp : get_opponent s1 pid = some opp) :
    (pass_resolve s1 pid drew msg).2.game_over = true
    ∧ (pass_resolve s1 pid drew msg).2.winner = some opp := by
  simp only [pass_resolve]
  rw [if_pos (by simpa [Function.update_same] using hpasses)]
  simp only [get_opponent] at hopp ⊢
  rw [hopp]
  dsimp only
  split
  · rename_i w hw
    split
    · rename_i hgo
      exact absurd rfl hgo
    · exact ⟨rfl, rfl⟩
  · exact ⟨rfl, rfl⟩

/-- C5: a pass that brings the player's consecutive-pass counter to
`MAX_CONSECUTIVE_PASSES` (3) immediately ends the game with the
opponent as winner, whatever the scores and the deck — the pass-streak
verdict is set before the deck-exhaustion check runs and is not
overridden by it. -/
theorem C5_three_passes_opponent_wins (s : GameState) (p q : String)
    (hst : s.game_started = true) (hov : s.game_over = false)
    (ht : is_player_turn s p = true) (hpq : s.players = [p, q]) (hne : q ≠ p)
    (hpl : get_playable_cards (s.hands p) s.played_cards s.last_was_wild
      s.open_paren_count = [])
    (hcp : s.consecutive_passes p = 2) :
    (pass_turn s p).1.success = true
    ∧ (pass_turn s p).2.game_over = true
    ∧ (pass_turn s p).2.winner = some q := by
  have hred : pass_turn s p = pass_turn_commit s p := by
    simp [pass_turn, hst, hov, ht, hpl]
  rw [hred]
  refine ⟨pass_turn_commit_success s p, ?_⟩
  simp only [pass_turn_commit]
  rw [(next_turn_fields _).2.2.2.2.2.2.2.2.1, (next_turn_fields _).2.2.2.2.2.2.2.1]
  have hd := pass_draw_fields s p
  have hopp1 : get_opponent (pass_draw s p).2 p = some q := by
    rw [get_opponent_players _ s hd.1 p]
    exact get_opponent_pair hpq hne
  have hpasses : (pass_draw s p).2.consecutive_passes p + 1 ≥ MAX_CONSECUTIVE_PASSES := by
    rw [hd.2.2.1, hcp]
    decide
  have hres := @pass_resolve_streak (pass_draw s p).2 p q
    (pass_draw s p).1.1 (pass_draw s p).1.2 hpasses hopp1
  exact ⟨hres.1, hres.2⟩

/-- A started session with the deck exhausted, A on a 2-pass streak
holding only an unplayable close-parenthesis, and A far ahead on
score — so the deck-exhaustion rule alone would name A the winner. -/
def stateC5 : GameState := {
  room_code := "C5",
  players := ["A", "B"],
  player_names := [("A", "PA"), ("B", "PB")],
  hands := fun p => if p = "A" then [")"] else ["x"],
  scores := fun p => if p = "A" then 9 else 1,
  deck := [],
  game_started := true,
  consecutive_passes := fun p => if p = "A" then 2 else 0 }

/-- C5, witness: on `stateC5` the third pass ends the game with B as
winner although A leads 9–1 and the deck is empty. -/
theorem C5_three_passes_opponent_wins_witness :
    (pass_turn stateC5 "A").1.success = true
    ∧ (pass_turn stateC5 "A").2.game_over = true
    ∧ (pass_turn stateC5 "A").2.winner = some "B" :=
  C5_three_passes_opponent_wins stateC5 "A" "B" rfl rfl (by decide) rfl (by decide)
    (by decide) (by decide)

/-- C7: `pass_turn` succeeds exactly when the game is running, it is
the player's turn, and no card in their hand is legal at the append
position; a successful pass increments that player's consecutive-pass
counter by exactly 1 and, when the deck is non-empty, draws exactly one
card (hand grows by one, deck shrinks by one; an empty deck leaves
both untouched). -/
theorem C7_pass_preconditions_and_effects (s : GameState) (p : String) :
    ((pass_turn s p).1.success = true ↔
      (s.game_started = true ∧ s.game_over = false ∧ is_player_turn s p = true ∧
        get_playable_cards (s.hands p) s.played_cards s.last_was_wild
          s.open_paren_count = []))
    ∧ ((pass_turn s p).1.success = true →
        ((pass_turn s p).2.consecutive_passes p = s.consecutive_passes p + 1
         ∧ (s.deck ≠ [] → ((pass_turn s p).2.hands p).length = (s.hands p).length + 1
             ∧ (pass_turn s p).2.deck.length + 1 = s.deck.length)
         ∧ (s.deck = [] → (pass_turn s p).2.hands p = s.hands p
             ∧ (pass_turn s p).2.deck = []))) := by
  have hmp : (pass_turn s p).1.success = true →
      (s.game_started = true ∧ s.game_over = false ∧ is_player_turn s p = true ∧
        get_playable_cards (s.hands p) s.played_cards s.last_was_wild
          s.open_paren_count = []) := by
    simp only [pass_turn]
    split
    · intro h; simp at h
    · split
      · intro h; simp at h
      · split
        · intro h; simp at h
        · split
          · intro h; simp at h
          · rename_i h1 h2 h3 h4
            intro _
            refine ⟨by simpa using h1, by simpa using h2, by simpa using h3, by simpa using h4⟩
  refine ⟨⟨hmp, ?_⟩, ?_⟩
  · rintro ⟨g1, g2, g3, g4⟩
    have hred : pass_turn s p = pass_turn_commit s p := by
      simp [pass_turn, g1, g2, g3, g4]
    rw [hred]
    exact pass_turn_commit_success s p
  · intro hsucc
    obtain ⟨g1, g2, g3, g4⟩ := hmp hsucc
    have hred : pass_turn s p = pass_turn_commit s p := by
      simp [pass_turn, g1, g2, g3, g4]
    rw [hred]
    refine ⟨?_, ?_, ?_⟩
    · simp only [pass_turn_commit]
      rw [(next_turn_fields _).2.2.2.2.2.2.2.2.2.1]
      rw [(pass_resolve_fields _ _ _ _).2.2.2.2.2.2]
      rw [Function.update_same]
      rw [(pass_draw_fields s p).2.2.1]
    · intro hdn
      obtain ⟨hh, hdk, _⟩ := pass_draw_nonempty p hdn
      have hlen : s.deck.length ≠ 0 := fun e => hdn (List.length_eq_zero.mp e)
      constructor
      · simp only [pass_turn_commit]
        rw [(next_turn_fields _).2.1]
        rw [(pass_resolve_fields _ _ _ _).2.1]
        rw [hh]
        rw [List.length_append, draw_cards_fst_length]
        omega
      · simp only [pass_turn_commit]
        rw [(next_turn_fields _).2.2.1]
        rw [(pass_resolve_fields _ _ _ _).2.2.1]
        rw [hdk, draw_cards_snd_length]
        omega
    · intro hde
      constructor
      · simp only [pass_turn_commit, pass_draw_empty p hde]
        rw [(next_turn_fields _).2.1]
        rw [(pass_resolve_fields _ _ _ _).2.1]
      · simp only [pass_turn_commit, pass_draw_empty p hde]
        rw [(next_turn_fields _).2.2.1]
        rw [(pass_resolve_fields _ _ _ _).2.2.1]
        exact hde

/-- A started session in which A holds only an unplayable
close-parenthesis and the deck still has one card. -/
def stateC7 : GameState := {
  room_code := "C7",
  players := ["A", "B"],
  hands := fun p => if p = "A" then [")"] else ["x"],
  deck := ["n"],
  game_started := true }

/-- C7, witness: on `stateC7` the pass succeeds (no playable card),
the counter goes from 0 to 1, the hand grows by one card and the deck
empties. -/
theorem C7_pass_preconditions_and_effects_witness :
    (pass_turn stateC7 "A").1.success = true
    ∧ (pass_turn stateC7 "A").2.consecutive_passes "A"
        = stateC7.consecutive_passes "A" + 1
    ∧ ((pass_turn stateC7 "A").2.hands "A").length = (stateC7.hands "A").length + 1
    ∧ (pass_turn stateC7 "A").2.deck.length + 1 = stateC7.deck.length := by
  have h := C7_pass_preconditions_and_effects stateC7 "A"
  have hsucc : (pass_turn stateC7 "A").1.success = true := h.1.mpr (by decide)
  have he := h.2 hsucc
  exact ⟨hsucc, he.1, (he.2.1 (by decide)).1, (he.2.1 (by decide)).2⟩

/-- A finished-deck session: equal scores, A holds two cards, B one. -/
def stateC6 : GameState := {
  room_code := "C6",
  players := ["A", "B"],
  hands := fun p => if p = "A" then ["x", "i"] else ["n"],
  scores := fun _ => 5,
  deck := [],
  game_started := true }

/-- C6, witness: on `stateC6` (deck empty, scores tied 5–5, hands of
sizes 2 and 1) the theorem names B, the player with strictly fewer
cards. -/
theorem C6_deck_exhaustion_tiebreak_witness :
    check_win_conditions stateC6 = some (
      if stateC6.scores "A" > stateC6.scores "B" then "A"
      else if stateC6.scores "B" > stateC6.scores "A" then "B"
      else if (stateC6.hands "A").length < (stateC6.hands "B").length then "A"
      else if (stateC6.hands "B").length < (stateC6.hands "A").length then "B"
      else "A") :=
  C6_deck_exhaustion_tiebreak stateC6 "A" "B" rfl rfl

/-! ### C1: card conservation -/

theorem card_total_next_turn (s : GameState) : card_total (next_turn s) = card_total s := by
  obtain ⟨tp, pu, pa, h⟩ := next_turn_spec s
  rw [h]
  rfl

theorem card_total_last_action (x : GameState) (la : Option LastAction) :
    card_total { x with last_action := la } = card_total x := rfl

theorem card_total_finish (res : PlayResult) (sA : GameState) (eff : Option String) :
    card_total (play_card_finish res sA eff).2 = card_total sA := by
  have hf := play_card_finish_fields res sA eff
  simp only [card_total, claimed_total, hands_total, hf.1, hf.2.1, hf.2.2.1,
    hf.2.2.2.1, hf.2.2.2.2.1, hf.2.2.2.2.2.1]

theorem hands_total_ge (players : List String) (hands : String → List String)
    {p : String} (hp : p ∈ players) : (hands p).length ≤ hands_total players hands := by
  induction players with
  | nil => cases hp
  | cons a t ih =>
    rcases List.mem_cons.mp hp with rfl | hpt
    · simp [hands_total]
    · have := ih hpt
      simp only [hands_total, List.map_cons, List.sum_cons] at this ⊢
      omega

theorem card_total_apply_special (s : GameState) (pid e : String) (r : Rand)
    (hr : r.OK) (hnd : s.players.Nodup) :
    card_total (apply_special_effect s pid e r).2 = card_total s := by
  simp only [apply_special_effect]
  split
  · -- draw_2
    split
    · rename_i o ho
      obtain ⟨hom, -⟩ := get_opponent_spec ho
      split
      · dsimp only
        simp only [card_total, claimed_total]
        have hupd := hands_total_update s.hands (s.hands o ++ (draw_cards s.deck 2).1) hnd hom
        have h1 := draw_cards_fst_length s.deck 2
        have h2 := draw_cards_snd_length s.deck 2
        simp only [List.length_append] at hupd
        simp only [hands_total] at hupd ⊢
        omega
      · rfl
    · rfl
  · split
    · -- discard_2
      split
      · rename_i o ho
        obtain ⟨hom, -⟩ := get_opponent_spec ho
        split
        · dsimp only
          simp only [card_total, claimed_total]
          have hcl := (hr.1 (min 2 (s.hands o).length) (s.hands o)).2
          have hln := (hr.1 (min 2 (s.hands o).length) (s.hands o)).1
          have hfold := foldl_erase_length _ _ hcl
          have hupd := hands_total_update s.hands
            ((r.sample (min 2 (s.hands o).length) (s.hands o)).foldl
              (fun h c => h.erase c) (s.hands o)) hnd hom
          simp only [hands_total] at hupd ⊢
          simp only [List.length_append]
          omega
        · rfl
      · rfl
    · split
      · -- skip
        rfl
      · split
        · -- wild
          rfl
        · rfl

theorem card_total_play_card_special (s1 : GameState) (pid c e : String) (pos : Nat)
    (r : Rand) (hr : r.OK) (hnd : s1.players.Nodup) :
    card_total (play_card_special s1 pid c e pos r).2 = card_total s1 + 1 := by
  simp only [play_card_special]
  split
  · simp [card_total, claimed_total, hands_total]
    omega
  · dsimp only
    have ha := card_total_apply_special s1 pid e r hr hnd
    simp only [card_total, claimed_total, hands_total] at ha ⊢
    rw [List.length_append]
    simp only [List.length_singleton]
    omega
theorem play_card_regular_conserve_fields (s1 : GameState) (pid c : String) (pos : Nat) :
    (play_card_regular s1 pid c pos).2.players = s1.players
    ∧ (play_card_regular s1 pid c pos).2.hands = s1.hands
    ∧ (play_card_regular s1 pid c pos).2.deck = s1.deck
    ∧ (play_card_regular s1 pid c pos).2.played_cards = s1.played_cards.insertIdx pos c
    ∧ (play_card_regular s1 pid c pos).2.consumed = s1.consumed
    ∧ (play_card_regular s1 pid c pos).2.discarded = s1.discarded := by
  simp only [play_card_regular]
  split
  · exact ⟨rfl, rfl, rfl, rfl, rfl, rfl⟩
  · exact ⟨rfl, rfl, rfl, rfl, rfl, rfl⟩

theorem card_total_play_card_regular (s1 : GameState) (pid c : String) (pos : Nat)
    (hpos : pos ≤ s1.played_cards.length) :
    card_total (play_card_regular s1 pid c pos).2 = card_total s1 + 1 := by
  have hf := play_card_regular_conserve_fields s1 pid c pos
  simp only [card_total, claimed_total, hands_total, hf.1, hf.2.1, hf.2.2.1,
    hf.2.2.2.1, hf.2.2.2.2.1, hf.2.2.2.2.2]
  rw [List.length_insertIdx pos s1.played_cards hpos]
  omega

theorem card_total_hand_erase (s : GameState) (pid c : String)
    (hnd : s.players.Nodup) (hp : pid ∈ s.players) (hc : c ∈ s.hands pid) :
    card_total { s with
      hands := Function.update s.hands pid ((s.hands pid).erase c),
      consecutive_passes := Function.update s.consecutive_passes pid 0 } + 1
      = card_total s := by
  simp only [card_total, claimed_total]
  have hupd := hands_total_update s.hands ((s.hands pid).erase c) hnd hp
  have hlen := List.length_erase_of_mem hc
  have hpos : 0 < (s.hands pid).length := List.length_pos.mpr (List.ne_nil_of_mem hc)
  simp only [hands_total] at hupd ⊢
  omega

theorem card_total_play_card_commit (s : GameState) (pid c : String) (pos : Nat) (r : Rand)
    (hr : r.OK) (hnd : s.players.Nodup) (hp : pid ∈ s.players) (hc : c ∈ s.hands pid)
    (hpos : pos ≤ s.played_cards.length) :
    card_total (play_card_commit s pid c pos r).2 = card_total s := by
  simp only [play_card_commit]
  rw [card_total_finish, card_total_last_action]
  split
  · rename_i e he
    have h1 := card_total_play_card_special
      { s with hands := Function.update s.hands pid ((s.hands pid).erase c),
               consecutive_passes := Function.update s.consecutive_passes pid 0 }
      pid c e pos r hr hnd
    rw [h1]
    exact card_total_hand_erase s pid c hnd hp hc
  · have h1 := card_total_play_card_regular
      { s with hands := Function.update s.hands pid ((s.hands pid).erase c),
               consecutive_passes := Function.update s.consecutive_passes pid 0 }
      pid c pos hpos
    rw [h1]
    exact card_total_hand_erase s pid c hnd hp hc
theorem card_total_play_card (s : GameState) (pid c : String) (position : Option Int)
    (r : Rand) (hr : r.OK) (hnd : s.players.Nodup) :
    card_total (play_card s pid c position r).2 = card_total s := by
  simp only [play_card]
  split
  · rfl
  · split
    · rfl
    · split
      · rfl
      · split
        · rfl
        · split
          · rfl
          · rename_i h1 h2 h3 h4 h5
            have hturn : is_player_turn s pid = true := not_not.mp h3
            have hp : pid ∈ s.players :=
              current_player_mem (is_player_turn_iff.mp hturn)
            have hc : c ∈ s.hands pid := not_not.mp h4
            exact card_total_play_card_commit s pid c _ r hr hnd hp hc
              (normPos_le position s.played_cards.length)
theorem card_total_pass_draw (s : GameState) (pid : String)
    (hnd : s.players.Nodup) (hp : pid ∈ s.players) :
    card_total (pass_draw s pid).2 = card_total s := by
  simp only [pass_draw]
  split
  · rename_i hne
    split
    · simp only [card_total, claimed_total]
      have hupd := hands_total_update s.hands (s.hands pid ++ (draw_cards s.deck 1).1) hnd hp
      have hf := draw_cards_fst_length s.deck 1
      have hsnd := draw_cards_snd_length s.deck 1
      have hdl : 0 < s.deck.length := List.length_pos.mpr hne
      simp only [hands_total] at hupd ⊢
      simp only [List.length_append] at hupd
      omega
    · rename_i h2
      exact absurd (draw_one_ne_nil hne) h2
  · rfl

theorem card_total_pass_resolve (s1 : GameState) (pid : String) (drew : Option String)
    (msg : String) :
    card_total (pass_resolve s1 pid drew msg).2 = card_total s1 := by
  have hf := pass_resolve_fields s1 pid drew msg
  simp only [card_total, claimed_total, hands_total, hf.1, hf.2.1, hf.2.2.1, hf.2.2.2.1,
    hf.2.2.2.2.1, hf.2.2.2.2.2.1]

theorem card_total_pass_turn_commit (s : GameState) (pid : String)
    (hnd : s.players.Nodup) (hp : pid ∈ s.players) :
    card_total (pass_turn_commit s pid).2 = card_total s := by
  simp only [pass_turn_commit]
  rw [card_total_next_turn, card_total_pass_resolve, card_total_pass_draw s pid hnd hp]

theorem card_total_pass_turn (s : GameState) (pid : String) (hnd : s.players.Nodup) :
    card_total (pass_turn s pid).2 = card_total s := by
  simp only [pass_turn]
  split
  · rfl
  · split
    · rfl
    · split
      · rfl
      · split
        · rfl
        · rename_i h1 h2 h3 h4
          have hp := current_player_mem (is_player_turn_iff.mp (not_not.mp h3))
          exact card_total_pass_turn_commit s pid hnd hp
theorem card_total_use_power_apply (s : GameState) (pid pw : String) (r : Rand)
    (hr : r.OK) (hnd : s.players.Nodup) (hp : pid ∈ s.players) :
    card_total (use_power_apply s pid pw r).2 = card_total s := by
  simp only [use_power_apply]
  repeat' split
  all_goals try rfl
  all_goals try (rename_i hh; exact Bool.noConfusion hh)
  · -- swap
    rename_i hlen hstep
    simp only [card_total, claimed_total]
    have hs2 := hr.1 2 (s.hands pid)
    have hfold := foldl_erase_length _ _ hs2.2
    have hshuf := (hr.2.1 (s.deck ++ r.sample 2 (s.hands pid))).length_eq
    have hdf := draw_cards_fst_length (r.shuffle (s.deck ++ r.sample 2 (s.hands pid))) 2
    have hds := draw_cards_snd_length (r.shuffle (s.deck ++ r.sample 2 (s.hands pid))) 2
    have hupd := hands_total_update s.hands
      (List.foldl (fun h c => h.erase c) (s.hands pid) (r.sample 2 (s.hands pid)) ++
        (draw_cards (r.shuffle (s.deck ++ r.sample 2 (s.hands pid))) 2).1) hnd hp
    simp only [hands_total] at hupd ⊢
    simp only [List.length_append] at hupd hshuf ⊢
    omega
  · -- mulligan
    rename_i hne hstep
    simp only [card_total, claimed_total]
    have hcl := countLe_filter (fun c => decide (c ∉ get_playable_cards (s.hands pid)
      s.played_cards s.last_was_wild s.open_paren_count)) (s.hands pid)
    have hfold := foldl_erase_length _ _ hcl
    have hdf := draw_cards_fst_length s.deck ((s.hands pid).filter (fun c =>
      decide (c ∉ get_playable_cards (s.hands pid) s.played_cards s.last_was_wild
        s.open_paren_count))).length
    have hds := draw_cards_snd_length s.deck ((s.hands pid).filter (fun c =>
      decide (c ∉ get_playable_cards (s.hands pid) s.played_cards s.last_was_wild
        s.open_paren_count))).length
    have hupd := hands_total_update s.hands
      (List.foldl (fun h c => h.erase c) (s.hands pid) ((s.hands pid).filter (fun c =>
        decide (c ∉ get_playable_cards (s.hands pid) s.played_cards s.last_was_wild
          s.open_paren_count))) ++
       (draw_cards s.deck ((s.hands pid).filter (fun c =>
        decide (c ∉ get_playable_cards (s.hands pid) s.played_cards s.last_was_wild
          s.open_paren_count))).length).1) hnd hp
    simp only [hands_total] at hupd ⊢
    simp only [List.length_append] at hupd ⊢
    omega
theorem card_total_use_power (s : GameState) (pid pw : String) (r : Rand)
    (hr : r.OK) (hnd : s.players.Nodup) :
    card_total (use_power s pid pw r).2 = card_total s := by
  simp only [use_power]
  split
  · rfl
  · split
    · rfl
    · split
      · rfl
      · split
        · rfl
        · split
          · rfl
          · split
            · rfl
            · rename_i h1 h2 h3 h4 h5 h6
              have hp := current_player_mem (is_player_turn_iff.mp (not_not.mp h3))
              exact card_total_use_power_apply s pid pw r hr hnd hp

theorem card_total_start_game (s : GameState) (r : Rand)
    (hr : r.OK) (hnd : s.players.Nodup)
    (hh : ∀ p, s.hands p = []) (hpc : s.played_cards = []) (hcons : s.consumed = [])
    (hdisc : s.discarded = []) (hsucc : (start_game s r).1 = true) :
    card_total (start_game s r).2 = create_deck.length := by
  simp only [start_game] at hsucc ⊢
  split at hsucc
  · cases hsucc
  · split at hsucc
    · cases hsucc
    · rename_i hready hns
      rw [if_neg hready, if_neg hns]
      have h2 : s.players.length = 2 := by
        simpa [is_ready] using not_not.mp hready
      obtain ⟨a, b, hab⟩ := List.length_eq_two.mp h2
      have hne : a ≠ b := by
        rw [hab] at hnd
        exact fun e => (List.nodup_cons.mp hnd).1 (by simp [e])
      rw [hab]
      simp only [card_total, claimed_total, hands_total, hpc, hcons, hdisc]
      simp only [List.foldl_cons, List.foldl_nil]
      simp only [List.map_cons, List.map_nil, List.sum_cons, List.sum_nil]
      rw [Function.update_noteq hne, Function.update_same, Function.update_same]
      have hL := (hr.2.1 create_deck).length_eq
      have h11 := draw_cards_fst_length (r.shuffle create_deck) STARTING_HAND_SIZE
      have h12 := draw_cards_snd_length (r.shuffle create_deck) STARTING_HAND_SIZE
      have h21 := draw_cards_fst_length (draw_cards (r.shuffle create_deck) STARTING_HAND_SIZE).2
        STARTING_HAND_SIZE
      have h22 := draw_cards_snd_length (draw_cards (r.shuffle create_deck) STARTING_HAND_SIZE).2
        STARTING_HAND_SIZE
      simp only [List.length_nil]
      omega

/-- A fresh two-player room, ready to start: no hands, no deck, no
played sequence, nothing consumed or destroyed yet. -/
def stateC1s : GameState := {
  room_code := "C1s",
  players := ["A", "B"] }

/-- C1 (amended): the claimed sum hands + deck + played + consumed is
NOT invariant (see the counterexample: `discard_2` destroys the
discarded cards), but it becomes invariant once extended by the cards
destroyed by `discard_2` and `mulligan` (the ghost `discarded` log):
under an admissible random source and distinct player ids, `play_card`,
`pass_turn` and `use_power` all preserve
hands + deck + played + consumed + discarded, and a successful
`start_game` from a fresh room sets that sum to the full catalog deck
size. -/
theorem C1_card_conservation (s : GameState) (pid c pw : String)
    (position : Option Int) (r : Rand) (hr : r.OK) (hnd : s.players.Nodup) :
    card_total (play_card s pid c position r).2 = card_total s
    ∧ card_total (pass_turn s pid).2 = card_total s
    ∧ card_total (use_power s pid pw r).2 = card_total s
    ∧ ((∀ p, s.hands p = []) → s.played_cards = [] → s.consumed = [] →
        s.discarded = [] → (start_game s r).1 = true →
        card_total (start_game s r).2 = create_deck.length) :=
  ⟨card_total_play_card s pid c position r hr hnd,
   card_total_pass_turn s pid hnd,
   card_total_use_power s pid pw r hr hnd,
   fun hh hpc hcons hdisc hsucc =>
     card_total_start_game s r hr hnd hh hpc hcons hdisc hsucc⟩

/-- C1, witness: the conservation theorem applied to the fresh room
`stateC1s` with the deterministic `takeRand` source: playing preserves
the extended sum, and a successful start sets it to the catalog deck
size. -/
theorem C1_card_conservation_witness :
    card_total (play_card stateC1s "A" "print" none takeRand).2 = card_total stateC1s
    ∧ card_total (start_game stateC1s takeRand).2 = create_deck.length := by
  have h := C1_card_conservation stateC1s "A" "print" "peek" none takeRand
    takeRand_OK (by decide)
  exact ⟨h.1, h.2.2.2 (fun p => rfl) rfl rfl rfl (by decide)⟩

end CardGame
